import Mathlib

/-!
Verification development for the ftrobopy native module (`src/ftrobopytools.c`):
a shallow embedding of the embedded NanoJPEG baseline decoder and of the
frame-analysis kernels (`detectLines`, `measureRGBColor`, `measureContrast`),
together with theorems settling the specification claims.

Modelling conventions:
* C `unsigned char` data is a `List Nat` of byte values; reading memory is
  `byteAt`, which returns 0 for out-of-range indices (the concrete inputs used
  in the theorems never read out of range, and the bit reader pads exhausted
  input with 0xFF exactly as the C does).
* C `int` arithmetic is unbounded `Int` (the decoder's arithmetic stays far
  below 2^31 on the inputs considered); `x >> n` on a possibly negative `int`
  is the arithmetic shift, modelled as floor division `sar`.
* The 32-bit bit accumulator `nj.buf` is a `Nat` kept modulo 2^32.
* `malloc` is modelled as always succeeding (allocation yields a zero list).
* Every loop is structural recursion; loops whose C termination is driven by
  data (the marker loop, the DHT/DQT segment loops, the MCU loop) take a fuel
  argument that provably dominates the number of iterations for the inputs
  of interest, so the embedding computes by kernel reduction.
-/

namespace FtRoboPy

/-- Error / result codes of the decoder (`nj_result_t`). `NJ_OK` doubles as
"no error yet" for the context's `error` field, exactly as value 0 does in C. -/
inductive NJResult where
  | NJ_OK
  | NJ_NO_JPEG
  | NJ_UNSUPPORTED
  | NJ_OUT_OF_MEM
  | NJ_INTERNAL_ERR
  | NJ_SYNTAX_ERROR
  | NJ_FINISHED
  deriving DecidableEq, Repr

open NJResult

/-- Read one byte of a buffer; out-of-range reads yield 0 (never exercised by
the theorems below, see module comment). -/
def byteAt (l : List Nat) (i : Int) : Nat :=
  if i < 0 then 0 else (l.getD i.toNat 0) % 256

/-- Arithmetic right shift on `Int` (gcc semantics of `>>`), i.e. floor
division by a power of two. -/
def sar (x : Int) (n : Nat) : Int := Int.fdiv x (2 ^ n)

/-- `njClip`: clamp an `int` to the byte range. -/
def njClip (x : Int) : Nat :=
  if x < 0 then 0 else if 255 < x then 255 else x.toNat

/-- `njDecode16`: big-endian 16-bit read. -/
def njDecode16 (l : List Nat) (p : Int) : Nat :=
  byteAt l p * 256 + byteAt l (p + 1)

/-- The zig-zag permutation `njZZ`. -/
def njZZ : List Nat :=
  [0, 1, 8, 16, 9, 2, 3, 10, 17, 24, 32, 25, 18,
   11, 4, 5, 12, 19, 26, 33, 40, 48, 41, 34, 27, 20, 13, 6, 7, 14, 21, 28, 35,
   42, 49, 56, 57, 50, 43, 36, 29, 22, 15, 23, 30, 37, 44, 51, 58, 59, 52, 45,
   38, 31, 39, 46, 53, 60, 61, 54, 47, 55, 62, 63]

/-- One color component (`nj_component_t`). -/
structure NJComp where
  cid : Nat
  ssx : Nat
  ssy : Nat
  width : Nat
  height : Nat
  stride : Nat
  qtsel : Nat
  actabsel : Nat
  dctabsel : Nat
  dcpred : Int
  pixels : List Nat
  deriving DecidableEq, Repr

/-- The all-zero component, as produced by `memset`. -/
def zeroComp : NJComp :=
  { cid := 0, ssx := 0, ssy := 0, width := 0, height := 0, stride := 0,
    qtsel := 0, actabsel := 0, dctabsel := 0, dcpred := 0, pixels := [] }

/-- The decoder context (`nj_context_t`).  `vlctab t v` is the entry
`nj.vlctab[t][v]` as the pair (bits, code). -/
structure NJCtx where
  error : NJResult
  inp : List Nat
  pos : Int
  size : Int
  length : Int
  width : Nat
  height : Nat
  mbwidth : Nat
  mbheight : Nat
  mbsizex : Nat
  mbsizey : Nat
  ncomp : Nat
  comp0 : NJComp
  comp1 : NJComp
  comp2 : NJComp
  qtused : Nat
  qtavail : Nat
  qtab : List (List Nat)
  vlctab : Nat → Nat → Nat × Nat
  buf : Nat
  bufbits : Nat
  block : List Int
  rstinterval : Nat
  rgb : List Nat

/-- `njInit`: the context after `memset(&nj, 0, sizeof(nj_context_t))`. -/
def njInitCtx : NJCtx :=
  { error := NJ_OK, inp := [], pos := 0, size := 0, length := 0,
    width := 0, height := 0, mbwidth := 0, mbheight := 0,
    mbsizex := 0, mbsizey := 0, ncomp := 0,
    comp0 := zeroComp, comp1 := zeroComp, comp2 := zeroComp,
    qtused := 0, qtavail := 0,
    qtab := [List.replicate 64 0, List.replicate 64 0,
             List.replicate 64 0, List.replicate 64 0],
    vlctab := fun _ _ => (0, 0),
    buf := 0, bufbits := 0, block := List.replicate 64 0,
    rstinterval := 0, rgb := [] }

/-- Access `nj.comp[i]` (the C code only ever uses indices 0..2). -/
def compGet (s : NJCtx) (i : Nat) : NJComp :=
  match i with
  | 0 => s.comp0
  | 1 => s.comp1
  | 2 => s.comp2
  | _ => zeroComp

/-- Update `nj.comp[i]`. -/
def compSet (s : NJCtx) (i : Nat) (c : NJComp) : NJCtx :=
  match i with
  | 0 => { s with comp0 := c }
  | 1 => { s with comp1 := c }
  | 2 => { s with comp2 := c }
  | _ => s

/-! ## Bitstream reader -/

/-- One iteration of the `while` body of `njShowBits`: pull one byte into the
bit accumulator, handling 0xFF stuffing and markers; exhausted input is padded
with synthetic 0xFF bytes (no memory access). -/
def pullByte (s : NJCtx) : NJCtx :=
  if s.size ≤ 0 then
    { s with buf := (s.buf * 256 + 0xFF) % 2 ^ 32, bufbits := s.bufbits + 8 }
  else
    let newbyte := byteAt s.inp s.pos
    let s1 : NJCtx :=
      { s with pos := s.pos + 1, size := s.size - 1,
               bufbits := s.bufbits + 8,
               buf := (s.buf * 256 + newbyte) % 2 ^ 32 }
    if newbyte = 0xFF then
      if s1.size ≠ 0 then
        let marker := byteAt s1.inp s1.pos
        let s2 : NJCtx := { s1 with pos := s1.pos + 1, size := s1.size - 1 }
        if marker = 0x00 ∨ marker = 0xFF then s2
        else if marker = 0xD9 then { s2 with size := 0 }
        else if marker &&& 0xF8 ≠ 0xD0 then { s2 with error := NJ_SYNTAX_ERROR }
        else
          { s2 with buf := (s2.buf * 256 + marker) % 2 ^ 32,
                    bufbits := s2.bufbits + 8 }
      else { s1 with error := NJ_SYNTAX_ERROR }
    else s1

/-- The `while (nj.bufbits < bits)` loop of `njShowBits`.  Each iteration adds
at least 8 valid bits, so `bits` units of fuel always suffice (`bits ≤ 16` at
every call site). -/
def njFillBits : Nat → NJCtx → Nat → NJCtx
  | 0, s, _ => s
  | fuel + 1, s, bits => if s.bufbits < bits then njFillBits fuel (pullByte s) bits else s

/-- `njShowBits`. -/
def njShowBits (s : NJCtx) (bits : Nat) : Nat × NJCtx :=
  if bits = 0 then (0, s)
  else
    let s1 := njFillBits bits s bits
    ((s1.buf / 2 ^ (s1.bufbits - bits)) % 2 ^ bits, s1)

/-- `njSkipBits`. -/
def njSkipBits (s : NJCtx) (bits : Nat) : NJCtx :=
  let s1 := if s.bufbits < bits then (njShowBits s bits).2 else s
  { s1 with bufbits := s1.bufbits - bits }

/-- `njGetBits`. -/
def njGetBits (s : NJCtx) (bits : Nat) : Nat × NJCtx :=
  let r := njShowBits s bits
  (r.1, njSkipBits r.2 bits)

/-- `njByteAlign`: `nj.bufbits &= 0xF8` (bufbits never exceeds 31). -/
def njByteAlign (s : NJCtx) : NJCtx :=
  { s with bufbits := s.bufbits - s.bufbits % 8 }

/-- `njSkip`. -/
def njSkip (s : NJCtx) (count : Int) : NJCtx :=
  let s1 : NJCtx :=
    { s with pos := s.pos + count, size := s.size - count,
             length := s.length - count }
  if s1.size < 0 then { s1 with error := NJ_SYNTAX_ERROR } else s1

/-- `njDecodeLength`.  Note that like the C `njThrow`, an error return only
leaves this function; callers continue with the errored context. -/
def njDecodeLength (s : NJCtx) : NJCtx :=
  if s.size < 2 then { s with error := NJ_SYNTAX_ERROR }
  else
    let s1 : NJCtx := { s with length := (njDecode16 s.inp s.pos : Int) }
    if s1.length > s1.size then { s1 with error := NJ_SYNTAX_ERROR }
    else njSkip s1 2

/-- `njSkipMarker` (no error check between the two steps, as in C). -/
def njSkipMarker (s : NJCtx) : NJCtx :=
  let s1 := njDecodeLength s
  njSkip s1 s1.length

/-! ## Define-Huffman-Table (`njDecodeDHT`) -/

/-- Fill `len` consecutive lookup entries starting at `start` with `v`
(the inner `for (j = spread; j; --j) { vlc->bits = ...; vlc->code = ...; ++vlc; }`
fill, expressed as a range update of the lookup function). -/
def vlcFill (f : Nat → Nat × Nat) (start len : Nat) (v : Nat × Nat) :
    Nat → Nat × Nat :=
  fun x => if start ≤ x ∧ x < start + len then v else f x

/-- The symbol loop `for (i = 0; i < currcnt; ++i)` of one code length:
symbol `i` is `nj.pos[i]` and occupies `spread` consecutive entries. -/
def dhtSpreadSyms (tab : Nat → Nat × Nat) (inp : List Nat) (p : Int)
    (codelen spread : Nat) : Nat → Nat → (Nat → Nat × Nat) × Nat
  | off, 0 => (tab, off)
  | off, cnt + 1 =>
      dhtSpreadSyms (vlcFill tab off spread (codelen, byteAt inp p)) inp
        (p + 1) codelen spread (off + spread) cnt

/-- The `for (codelen = 1; codelen <= 16; ++codelen)` loop of `njDecodeDHT`,
recursing over the list of remaining counts.  Returns the context, the updated
lookup table, the remaining code space, the next free entry, and whether the
loop exited through `njThrow` (in which case `njDecodeDHT` as a whole aborts,
with the partial table writes already performed, as in C). -/
def dhtLoop (s : NJCtx) (tab : Nat → Nat × Nat) (cnts : List Nat)
    (spread : Nat) (remain : Int) (off : Nat) :
    NJCtx × (Nat → Nat × Nat) × Int × Nat × Bool :=
  match cnts with
  | [] => (s, tab, remain, off, false)
  | currcnt :: rest =>
      let spread1 := spread / 2
      if currcnt = 0 then dhtLoop s tab rest spread1 remain off
      else if s.length < (currcnt : Int) then
        ({ s with error := NJ_SYNTAX_ERROR }, tab, remain, off, true)
      else
        let codelen := 16 - rest.length
        let remain1 := remain - currcnt * 2 ^ (16 - codelen)
        if remain1 < 0 then
          ({ s with error := NJ_SYNTAX_ERROR }, tab, remain1, off, true)
        else
          let fill := dhtSpreadSyms tab s.inp s.pos codelen spread1 off currcnt
          dhtLoop (njSkip s currcnt) fill.1 rest spread1 remain1 fill.2

/-- The trailing `while (remain--) { vlc->bits = 0; ++vlc; }` fill: the `code`
byte of the cleared entries is left untouched. -/
def dhtTailFill (tab : Nat → Nat × Nat) (off : Nat) (remain : Int) :
    Nat → Nat × Nat :=
  fun x => if off ≤ x ∧ x < off + remain.toNat then (0, (tab x).2) else tab x

/-- Update one of the four lookup tables. -/
def vlctabSet (f : Nat → Nat → Nat × Nat) (ti : Nat) (tab : Nat → Nat × Nat) :
    Nat → Nat → Nat × Nat :=
  fun t => if t = ti then tab else f t

/-- The `while (nj.length >= 17)` loop of `njDecodeDHT`. -/
def dhtWhile : Nat → NJCtx → NJCtx
  | 0, s => s
  | fuel + 1, s =>
      if 17 ≤ s.length then
        let i0 := byteAt s.inp s.pos
        if i0 &&& 0xEC ≠ 0 then { s with error := NJ_SYNTAX_ERROR }
        else if i0 &&& 0x02 ≠ 0 then { s with error := NJ_UNSUPPORTED }
        else
          let ti := (i0 ||| (i0 >>> 3)) &&& 3
          let counts := (List.range 16).map fun k => byteAt s.inp (s.pos + 1 + k)
          let s1 := njSkip s 17
          match dhtLoop s1 (s1.vlctab ti) counts 65536 65536 0 with
          | (s2, tab, remain, off, threw) =>
              if threw then { s2 with vlctab := vlctabSet s2.vlctab ti tab }
              else
                dhtWhile fuel
                  { s2 with vlctab := vlctabSet s2.vlctab ti
                              (dhtTailFill tab off remain) }
      else if s.length ≠ 0 then { s with error := NJ_SYNTAX_ERROR } else s

/-- `njDecodeDHT`. -/
def njDecodeDHT (s : NJCtx) : NJCtx :=
  let s1 := njDecodeLength s
  dhtWhile (s1.length.toNat + 1) s1

/-! ## Define-Quantization-Table (`njDecodeDQT`) -/

/-- The `while (nj.length >= 65)` loop of `njDecodeDQT`. -/
def dqtWhile : Nat → NJCtx → NJCtx
  | 0, s => s
  | fuel + 1, s =>
      if 65 ≤ s.length then
        let i := byteAt s.inp s.pos
        if i &&& 0xFC ≠ 0 then { s with error := NJ_SYNTAX_ERROR }
        else
          let t := (List.range 64).map fun k => byteAt s.inp (s.pos + 1 + k)
          let s1 : NJCtx :=
            { s with qtavail := s.qtavail ||| (1 <<< i),
                     qtab := s.qtab.set i t }
          dqtWhile fuel (njSkip s1 65)
      else if s.length ≠ 0 then { s with error := NJ_SYNTAX_ERROR } else s

/-- `njDecodeDQT`. -/
def njDecodeDQT (s : NJCtx) : NJCtx :=
  dqtWhile (s.size.toNat + 1) (njDecodeLength s)

/-! ## Start-Of-Frame (`njDecodeSOF`) -/

/-- First component loop of `njDecodeSOF` (reads id, sampling factors and
quantization-table selector of each of the `n` remaining components, with the
C's write-then-check order).  Returns the context, the running sampling-factor
maxima, and whether an `njThrow` occurred. -/
def sofComps (s : NJCtx) (i : Nat) (sx sy : Nat) :
    Nat → NJCtx × Nat × Nat × Bool
  | 0 => (s, sx, sy, false)
  | n + 1 =>
      let ssx := byteAt s.inp (s.pos + 1) >>> 4
      let ssy := byteAt s.inp (s.pos + 1) &&& 15
      let qtsel := byteAt s.inp (s.pos + 2)
      let s1 := compSet s i
        { compGet s i with cid := byteAt s.inp s.pos, ssx := ssx }
      if ssx = 0 then ({ s1 with error := NJ_SYNTAX_ERROR }, sx, sy, true)
      else if ssx &&& (ssx - 1) ≠ 0 then
        ({ s1 with error := NJ_UNSUPPORTED }, sx, sy, true)
      else
        let s2 := compSet s1 i { compGet s1 i with ssy := ssy }
        if ssy = 0 then ({ s2 with error := NJ_SYNTAX_ERROR }, sx, sy, true)
        else if ssy &&& (ssy - 1) ≠ 0 then
          ({ s2 with error := NJ_UNSUPPORTED }, sx, sy, true)
        else
          let s3 := compSet s2 i { compGet s2 i with qtsel := qtsel }
          if qtsel &&& 0xFC ≠ 0 then
            ({ s3 with error := NJ_SYNTAX_ERROR }, sx, sy, true)
          else
            let s4 := njSkip s3 3
            let s5 : NJCtx := { s4 with qtused := s4.qtused ||| (1 <<< qtsel) }
            sofComps s5 (i + 1) (if sx < ssx then ssx else sx)
              (if sy < ssy then ssy else sy) n

/-- Second component loop of `njDecodeSOF`: plane geometry and allocation. -/
def sofDims (s : NJCtx) (ssxmax ssymax : Nat) (i : Nat) :
    Nat → NJCtx × Bool
  | 0 => (s, false)
  | n + 1 =>
      let c := compGet s i
      let w := (s.width * c.ssx + ssxmax - 1) / ssxmax
      let h := (s.height * c.ssy + ssymax - 1) / ssymax
      let stride := s.mbwidth * c.ssx * 8
      let s1 := compSet s i { c with width := w, height := h, stride := stride }
      if (w < 3 ∧ c.ssx ≠ ssxmax) ∨ (h < 3 ∧ c.ssy ≠ ssymax) then
        ({ s1 with error := NJ_UNSUPPORTED }, true)
      else
        let s2 := compSet s1 i
          { compGet s1 i with
              pixels := List.replicate (stride * s.mbheight * c.ssy * 8) 0 }
        sofDims s2 ssxmax ssymax (i + 1) n

/-- The tail of `njDecodeSOF` after the first component loop returned without
throwing: grayscale forcing (`nj.ncomp == 1`), MCU geometry, the plane loop,
the RGB allocation and the final skip. -/
def sofAfterComps (s4 : NJCtx) (sx sy : Nat) : NJCtx :=
  let forced := s4.ncomp = 1
  let s5 :=
    if forced then compSet s4 0 { compGet s4 0 with ssx := 1, ssy := 1 }
    else s4
  let ssxmax := if forced then 1 else sx
  let ssymax := if forced then 1 else sy
  let s6 : NJCtx :=
    { s5 with mbsizex := ssxmax * 8, mbsizey := ssymax * 8,
              mbwidth := (s5.width + ssxmax * 8 - 1) / (ssxmax * 8),
              mbheight := (s5.height + ssymax * 8 - 1) / (ssymax * 8) }
  match sofDims s6 ssxmax ssymax 0 s6.ncomp with
  | (s7, threw2) =>
      if threw2 then s7
      else
        let s8 : NJCtx :=
          if s7.ncomp = 3 then
            { s7 with rgb := List.replicate (s7.width * s7.height * 3) 0 }
          else s7
        njSkip s8 s8.length

/-- `njDecodeSOF`. -/
def njDecodeSOF (s : NJCtx) : NJCtx :=
  let s1 := njDecodeLength s
  if s1.length < 9 then { s1 with error := NJ_SYNTAX_ERROR }
  else if byteAt s1.inp s1.pos ≠ 8 then { s1 with error := NJ_UNSUPPORTED }
  else
    let s2 : NJCtx :=
      { s1 with height := njDecode16 s1.inp (s1.pos + 1),
                width := njDecode16 s1.inp (s1.pos + 3),
                ncomp := byteAt s1.inp (s1.pos + 5) }
    let s3 := njSkip s2 6
    if s3.ncomp ≠ 1 ∧ s3.ncomp ≠ 3 then { s3 with error := NJ_UNSUPPORTED }
    else if s3.length < (s3.ncomp * 3 : Int) then
      { s3 with error := NJ_SYNTAX_ERROR }
    else
      match sofComps s3 0 0 0 s3.ncomp with
      | (s4, sx, sy, threw) => if threw then s4 else sofAfterComps s4 sx sy

/-- `njDecodeDRI`. -/
def njDecodeDRI (s : NJCtx) : NJCtx :=
  let s1 := njDecodeLength s
  if s1.length < 2 then { s1 with error := NJ_SYNTAX_ERROR }
  else
    let s2 : NJCtx := { s1 with rstinterval := njDecode16 s1.inp s1.pos }
    njSkip s2 s2.length

/-! ## Inverse DCT (`njRowIDCT`, `njColIDCT`)

The fixed-point butterfly constants. -/

def W1 : Int := 2841
def W2 : Int := 2676
def W3 : Int := 2408
def W5 : Int := 1609
def W6 : Int := 1108
def W7 : Int := 565

/-- The butterfly (non-fast-path) body of `njRowIDCT`, producing the
transformed 8-entry row. -/
def njRowIDCT_butt (blk : List Int) : List Int :=
  let b := fun i => blk.getD i 0
  let x1 := b 4 * 2048
  let x2 := b 6
  let x3 := b 2
  let x4 := b 1
  let x5 := b 7
  let x6 := b 5
  let x7 := b 3
  let x0 := b 0 * 2048 + 128
  let x8 := W7 * (x4 + x5)
  let x4 := x8 + (W1 - W7) * x4
  let x5 := x8 - (W1 + W7) * x5
  let x8 := W3 * (x6 + x7)
  let x6 := x8 - (W3 - W5) * x6
  let x7 := x8 - (W3 + W5) * x7
  let x8 := x0 + x1
  let x0 := x0 - x1
  let x1 := W6 * (x3 + x2)
  let x2 := x1 - (W2 + W6) * x2
  let x3 := x1 + (W2 - W6) * x3
  let x1 := x4 + x6
  let x4 := x4 - x6
  let x6 := x5 + x7
  let x5 := x5 - x7
  let x7 := x8 + x3
  let x8 := x8 - x3
  let x3 := x0 + x2
  let x0 := x0 - x2
  let x2 := sar (181 * (x4 + x5) + 128) 8
  let x4 := sar (181 * (x4 - x5) + 128) 8
  [sar (x7 + x1) 8, sar (x3 + x2) 8, sar (x0 + x4) 8, sar (x8 + x6) 8,
   sar (x8 - x6) 8, sar (x0 - x4) 8, sar (x3 - x2) 8, sar (x7 - x1) 8]

/-- `njRowIDCT` on one 8-entry row: the all-AC-zero fast path fills the row
with `blk[0] << 3`, otherwise the butterfly runs.  (The C test
`!((x1 = blk[4] << 11) | x2 | ... | x7)` is the conjunction of the seven AC
entries being zero.) -/
def njRowIDCT (blk : List Int) : List Int :=
  let b := fun i => blk.getD i 0
  if b 4 * 2048 = 0 ∧ b 6 = 0 ∧ b 2 = 0 ∧ b 1 = 0 ∧ b 7 = 0 ∧ b 5 = 0 ∧ b 3 = 0
  then List.replicate 8 (b 0 * 8)
  else njRowIDCT_butt blk

/-- The butterfly (non-fast-path) body of `njColIDCT` on one extracted
8-entry column, producing the 8 clipped output bytes. -/
def njColIDCT_butt (blk : List Int) : List Nat :=
  let b := fun i => blk.getD i 0
  let x1 := b 4 * 256
  let x2 := b 6
  let x3 := b 2
  let x4 := b 1
  let x5 := b 7
  let x6 := b 5
  let x7 := b 3
  let x0 := b 0 * 256 + 8192
  let x8 := W7 * (x4 + x5) + 4
  let x4 := sar (x8 + (W1 - W7) * x4) 3
  let x5 := sar (x8 - (W1 + W7) * x5) 3
  let x8 := W3 * (x6 + x7) + 4
  let x6 := sar (x8 - (W3 - W5) * x6) 3
  let x7 := sar (x8 - (W3 + W5) * x7) 3
  let x8 := x0 + x1
  let x0 := x0 - x1
  let x1 := W6 * (x3 + x2) + 4
  let x2 := sar (x1 - (W2 + W6) * x2) 3
  let x3 := sar (x1 + (W2 - W6) * x3) 3
  let x1 := x4 + x6
  let x4 := x4 - x6
  let x6 := x5 + x7
  let x5 := x5 - x7
  let x7 := x8 + x3
  let x8 := x8 - x3
  let x3 := x0 + x2
  let x0 := x0 - x2
  let x2 := sar (181 * (x4 + x5) + 128) 8
  let x4 := sar (181 * (x4 - x5) + 128) 8
  [njClip (sar (x7 + x1) 14 + 128), njClip (sar (x3 + x2) 14 + 128),
   njClip (sar (x0 + x4) 14 + 128), njClip (sar (x8 + x6) 14 + 128),
   njClip (sar (x8 - x6) 14 + 128), njClip (sar (x0 - x4) 14 + 128),
   njClip (sar (x3 - x2) 14 + 128), njClip (sar (x7 - x1) 14 + 128)]

/-- `njColIDCT` on one extracted 8-entry column: the all-AC-zero fast path
fills the column with the single clipped DC level, otherwise the butterfly. -/
def njColIDCT (blk : List Int) : List Nat :=
  let b := fun i => blk.getD i 0
  if b 4 * 256 = 0 ∧ b 6 = 0 ∧ b 2 = 0 ∧ b 1 = 0 ∧ b 7 = 0 ∧ b 5 = 0 ∧ b 3 = 0
  then List.replicate 8 (njClip (sar (b 0 + 32) 6 + 128))
  else njColIDCT_butt blk

/-- The row pass `for (coef = 0; coef < 64; coef += 8) njRowIDCT(&block[coef])`
over the 64-entry coefficient block. -/
def rowPass (blk : List Int) : List Int :=
  ((List.range 8).map fun r => njRowIDCT ((blk.drop (8 * r)).take 8)).flatten

/-- Same with the butterfly unconditionally (for the fast-path comparison). -/
def rowPassButt (blk : List Int) : List Int :=
  ((List.range 8).map fun r => njRowIDCT_butt ((blk.drop (8 * r)).take 8)).flatten

/-- Extract column `c` of the 64-entry block (the entries `blk[8k + c]`). -/
def getCol (blk : List Int) (c : Nat) : List Int :=
  (List.range 8).map fun k => blk.getD (8 * k + c) 0

/-- The 8 output bytes `njColIDCT(&blk[c], ...)` writes for column `c`. -/
def colBytes (blk : List Int) (c : Nat) : List Nat :=
  njColIDCT (getCol blk c)

/-- Same with the butterfly unconditionally. -/
def colBytesButt (blk : List Int) (c : Nat) : List Nat :=
  njColIDCT_butt (getCol blk c)

/-- Write the 8 bytes of one column into a pixel plane at `base`, stepping by
`stride` (the `*out = ...; out += stride;` sequence of `njColIDCT`). -/
def writeCol (plane : List Nat) (stride base : Nat) (vals : List Nat) :
    List Nat :=
  (List.range 8).foldl (fun p k => p.set (base + k * stride) (vals.getD k 0))
    plane

/-! ## VLC decoding and block decoding -/

/-- `njGetVLC`.  Returns the decoded coefficient value, the symbol byte
(`none` when the C function returns without writing `*code`, in which case the
caller's local keeps its previous value), and the context. -/
def njGetVLC (s : NJCtx) (ti : Nat) : Int × Option Nat × NJCtx :=
  let r := njShowBits s 16
  let value := r.1
  let s1 := r.2
  let bits := (s1.vlctab ti value).1
  if bits = 0 then (0, none, { s1 with error := NJ_SYNTAX_ERROR })
  else
    let s2 := njSkipBits s1 bits
    let sym := (s1.vlctab ti value).2
    let bits2 := sym &&& 15
    if bits2 = 0 then (0, some sym, s2)
    else
      let r2 := njGetBits s2 bits2
      let v : Int :=
        if (r2.1 : Int) < 2 ^ (bits2 - 1) then
          (r2.1 : Int) + (-(2 ^ bits2 : Int)) + 1
        else (r2.1 : Int)
      (v, some sym, r2.2)

/-- The AC-coefficient `do { ... } while (coef < 63)` loop of
`njDecodeBlock`.  `code` is the caller-local symbol byte. -/
def acLoop (s : NJCtx) (actab qtsel : Nat) (code : Nat) :
    Nat → Nat → NJCtx
  | _, 0 => s
  | coef, fuel + 1 =>
      let r := njGetVLC s actab
      let value := r.1
      let code1 := r.2.1.getD code
      let s1 := r.2.2
      if code1 = 0 then s1
      else if code1 &&& 0x0F = 0 ∧ code1 ≠ 0xF0 then
        { s1 with error := NJ_SYNTAX_ERROR }
      else
        let coef1 := coef + (code1 >>> 4) + 1
        if 63 < coef1 then { s1 with error := NJ_SYNTAX_ERROR }
        else
          let coefval : Int := value * ((s1.qtab.getD qtsel []).getD coef1 0 : Int)
          let s2 : NJCtx := { s1 with block := s1.block.set (njZZ.getD coef1 0) coefval }
          if coef1 < 63 then acLoop s2 actab qtsel code1 coef1 fuel else s2

/-- `njDecodeBlock` for component `ci`, writing the 8×8 result into the
component's plane at offset `out`. -/
def njDecodeBlock (s : NJCtx) (ci : Nat) (out : Nat) : NJCtx :=
  let c := compGet s ci
  let s1 : NJCtx := { s with block := List.replicate 64 0 }
  let r := njGetVLC s1 c.dctabsel
  let s2 := r.2.2
  let dcpred := c.dcpred + r.1
  let s3 := compSet s2 ci { compGet s2 ci with dcpred := dcpred }
  let dcval : Int := dcpred * ((s3.qtab.getD c.qtsel []).getD 0 0 : Int)
  let s4 : NJCtx := { s3 with block := s3.block.set 0 dcval }
  let s5 := acLoop s4 c.actabsel c.qtsel 0 0 64
  let blk := rowPass s5.block
  let c1 := compGet s5 ci
  let plane :=
    (List.range 8).foldl
      (fun p cf => writeCol p c1.stride (out + cf) (colBytes blk cf)) c1.pixels
  compSet s5 ci { c1 with pixels := plane }

/-! ## Scan driver (`njDecodeScan`) -/

/-- Component loop of the scan header. -/
def scanComps (s : NJCtx) (i : Nat) : Nat → NJCtx × Bool
  | 0 => (s, false)
  | n + 1 =>
      if byteAt s.inp s.pos ≠ (compGet s i).cid then
        ({ s with error := NJ_SYNTAX_ERROR }, true)
      else if byteAt s.inp (s.pos + 1) &&& 0xEE ≠ 0 then
        ({ s with error := NJ_SYNTAX_ERROR }, true)
      else
        let s1 := compSet s i
          { compGet s i with
              dctabsel := byteAt s.inp (s.pos + 1) >>> 4,
              actabsel := (byteAt s.inp (s.pos + 1) &&& 1) ||| 2 }
        scanComps (njSkip s1 2) (i + 1) n

/-- The `(component, plane offset)` pairs of the blocks of one MCU, in the
C iteration order. -/
def blockOffsets (s : NJCtx) (mbx mby : Nat) : List (Nat × Nat) :=
  ((List.range s.ncomp).map fun i =>
    let c := compGet s i
    ((List.range c.ssy).map fun sby =>
      (List.range c.ssx).map fun sbx =>
        (i, ((mby * c.ssy + sby) * c.stride + mbx * c.ssx + sbx) * 8)).flatten).flatten

/-- Decode the blocks of one MCU, with the `njCheckError()` exit after each
block exactly as in C (in particular the first block runs even if an earlier
stage left the error flag set). -/
def runBlocks (s : NJCtx) : List (Nat × Nat) → NJCtx
  | [] => s
  | t :: rest =>
      let s1 := njDecodeBlock s t.1 t.2
      if s1.error ≠ NJ_OK then s1 else runBlocks s1 rest

/-- The restart-marker resynchronization step of `njDecodeScan` (lines
472-478 of the C): byte-align, read a 16-bit marker, require
`0xFFD0 | nextrst`, then bump the expected counter modulo 8 and clear every
component's DC predictor.  The boolean is true when the marker check failed
(`njThrow`, which aborts the scan); any error the bit reader itself recorded
does not abort the scan here, matching C. -/
def njRestart (s : NJCtx) (nextrst : Nat) : NJCtx × Nat × Bool :=
  let s1 := njByteAlign s
  let r := njGetBits s1 16
  let i := r.1
  let s2 := r.2
  if i &&& 0xFFF8 ≠ 0xFFD0 ∨ i &&& 7 ≠ nextrst then
    ({ s2 with error := NJ_SYNTAX_ERROR }, nextrst, true)
  else
    let s3 := compSet s2 0 { compGet s2 0 with dcpred := 0 }
    let s4 := compSet s3 1 { compGet s3 1 with dcpred := 0 }
    let s5 := compSet s4 2 { compGet s4 2 with dcpred := 0 }
    (s5, (nextrst + 1) &&& 7, false)

/-- The MCU loop `for (mbx = mby = 0;;)` of `njDecodeScan`.  The fuel
`(mbwidth+1)*(mbheight+1)` strictly dominates the iteration count, so the
fuel-exhaustion branch is unreachable. -/
def scanLoop : Nat → NJCtx → Nat → Nat → Nat → Nat → NJCtx
  | 0, s, _, _, _, _ => { s with error := NJ_INTERNAL_ERR }
  | fuel + 1, s, mbx, mby, rstcount, nextrst =>
      let s1 := runBlocks s (blockOffsets s mbx mby)
      if s1.error ≠ NJ_OK then s1
      else
        let mbx1 := mbx + 1
        let wrap := s1.mbwidth ≤ mbx1
        if wrap ∧ s1.mbheight ≤ mby + 1 then { s1 with error := NJ_FINISHED }
        else
          let mbx2 := if wrap then 0 else mbx1
          let mby2 := if wrap then mby + 1 else mby
          if s1.rstinterval ≠ 0 ∧ rstcount - 1 = 0 then
            match njRestart s1 nextrst with
            | (s2, nextrst1, threw) =>
                if threw then s2
                else scanLoop fuel s2 mbx2 mby2 s1.rstinterval nextrst1
          else
            scanLoop fuel s1 mbx2 mby2
              (if s1.rstinterval ≠ 0 then rstcount - 1 else rstcount) nextrst

/-- `njDecodeScan`. -/
def njDecodeScan (s : NJCtx) : NJCtx :=
  let s1 := njDecodeLength s
  if s1.length < (4 + 2 * s1.ncomp : Int) then { s1 with error := NJ_SYNTAX_ERROR }
  else if byteAt s1.inp s1.pos ≠ s1.ncomp then { s1 with error := NJ_UNSUPPORTED }
  else
    let s2 := njSkip s1 1
    match scanComps s2 0 s2.ncomp with
    | (s3, true) => s3
    | (s3, false) =>
        if byteAt s3.inp s3.pos ≠ 0 ∨ byteAt s3.inp (s3.pos + 1) ≠ 63 ∨
            byteAt s3.inp (s3.pos + 2) ≠ 0 then
          { s3 with error := NJ_UNSUPPORTED }
        else
          let s4 := njSkip s3 s3.length
          scanLoop ((s4.mbwidth + 1) * (s4.mbheight + 1)) s4 0 0
            s4.rstinterval 0

/-! ## Upsampling and color conversion (`njUpsample`, `njConvert`) -/

/-- The doubling loop `while (w < target) { w <<= 1; ++shift; }` (fuel 32
suffices for every width the decoder can produce). -/
def upShift : Nat → Nat → Nat → Nat × Nat
  | 0, w, _ => (w, 0)
  | fuel + 1, w, target =>
      if w < target then
        let r := upShift fuel (w * 2) target
        (r.1, r.2 + 1)
      else (w, 0)

/-- `njUpsample` (the nearest-neighbour variant compiled when
`NJ_CHROMA_FILTER` is not defined). -/
def njUpsample (c : NJComp) (tw th : Nat) : NJComp :=
  let rw := upShift 32 c.width tw
  let rh := upShift 32 c.height th
  let out :=
    ((List.range rh.1).map fun y =>
      (List.range rw.1).map fun x =>
        c.pixels.getD ((y >>> rh.2) * c.stride + (x >>> rw.2)) 0).flatten
  { c with width := rw.1, height := rh.1, stride := rw.1, pixels := out }

/-- Per-component upsampling loop of `njConvert`, with the
`njThrow(NJ_INTERNAL_ERR)` check. -/
def convComps (s : NJCtx) (i : Nat) : Nat → NJCtx × Bool
  | 0 => (s, false)
  | n + 1 =>
      let c := compGet s i
      let s1 :=
        if c.width < s.width ∨ c.height < s.height then
          compSet s i (njUpsample c s.width s.height)
        else s
      let c1 := compGet s1 i
      if c1.width < s1.width ∨ c1.height < s1.height then
        ({ s1 with error := NJ_INTERNAL_ERR }, true)
      else convComps s1 (i + 1) n

/-- The YCbCr→RGB conversion loop of `njConvert` (fixed-point coefficients
359/88/183/454 with an 8-bit shift). -/
def njConvertRGB (s : NJCtx) : List Nat :=
  ((List.range s.height).map fun r =>
    ((List.range s.width).map fun x =>
      let y := ((compGet s 0).pixels.getD (r * (compGet s 0).stride + x) 0 : Int) * 256
      let cb := ((compGet s 1).pixels.getD (r * (compGet s 1).stride + x) 0 : Int) - 128
      let cr := ((compGet s 2).pixels.getD (r * (compGet s 2).stride + x) 0 : Int) - 128
      [njClip (sar (y + 359 * cr + 128) 8),
       njClip (sar (y - 88 * cb - 183 * cr + 128) 8),
       njClip (sar (y + 454 * cb + 128) 8)]).flatten).flatten

/-- One `njCopyMem(pout, pin, width)` of the grayscale stride-removal loop,
as a forward byte copy. -/
def copyRow (pl : List Nat) (src dst n : Nat) : List Nat :=
  (List.range n).foldl (fun p k => p.set (dst + k) (p.getD (src + k) 0)) pl

/-- The grayscale stride-removal loop (`rows` is `height - 1`). -/
def strideRemove (pl : List Nat) (width stride rows : Nat) : List Nat :=
  (List.range rows).foldl
    (fun p r => copyRow p ((r + 1) * stride) ((r + 1) * width) width) pl

/-- `njConvert`. -/
def njConvert (s : NJCtx) : NJCtx :=
  match convComps s 0 s.ncomp with
  | (s1, true) => s1
  | (s1, false) =>
      if s1.ncomp = 3 then { s1 with rgb := njConvertRGB s1 }
      else
        let c := compGet s1 0
        if c.width ≠ c.stride then
          compSet s1 0
            { c with stride := c.width,
                     pixels := strideRemove c.pixels c.width c.stride
                                 (c.height - 1) }
        else s1

/-! ## Top level (`njInit`, `njDone`, `njDecode`) -/

/-- `njDone`: frees the planes and re-runs `njInit`, i.e. resets the whole
context to the zero state regardless of what it held. -/
def njDone (_ : NJCtx) : NJCtx := njInitCtx

/-- The marker loop `while (!nj.error)` of `njDecode`.  `some r` is an early
`return r` out of `njDecode`; `none` means the loop ended because the error
flag was set.  Each surviving iteration consumes at least two input bytes, so
fuel `jpeg.length + 2` is never exhausted on inputs whose segment lengths do
not drive `nj.size` up; the fuel branch mirrors no C behaviour and is
unreachable for the inputs used in the theorems. -/
def njMainLoop : Nat → NJCtx → NJCtx × Option NJResult
  | 0, s => (s, some NJ_INTERNAL_ERR)
  | fuel + 1, s =>
      if s.error ≠ NJ_OK then (s, none)
      else if s.size < 2 ∨ byteAt s.inp s.pos ≠ 0xFF then
        (s, some NJ_SYNTAX_ERROR)
      else
        let s1 := njSkip s 2
        let m := byteAt s1.inp (s1.pos - 1)
        if m = 0xC0 then njMainLoop fuel (njDecodeSOF s1)
        else if m = 0xC4 then njMainLoop fuel (njDecodeDHT s1)
        else if m = 0xDB then njMainLoop fuel (njDecodeDQT s1)
        else if m = 0xDD then njMainLoop fuel (njDecodeDRI s1)
        else if m = 0xDA then njMainLoop fuel (njDecodeScan s1)
        else if m = 0xFE then njMainLoop fuel (njSkipMarker s1)
        else if m &&& 0xF0 = 0xE0 then njMainLoop fuel (njSkipMarker s1)
        else (s1, some NJ_UNSUPPORTED)

/-- `njDecode`.  Takes the previous global context (the C function operates on
the process-wide `nj`), the input bytes and the declared size; returns the
final context and the `nj_result_t` return value. -/
def njDecode (s0 : NJCtx) (jpeg : List Nat) (size : Int) : NJCtx × NJResult :=
  let sI := njDone s0
  let s : NJCtx := { sI with inp := jpeg, pos := 0,
                             size := (size.toNat % 2 ^ 31 : Nat) }
  if s.size < 2 then (s, NJ_NO_JPEG)
  else if byteAt jpeg 0 ≠ 0xFF ∨ byteAt jpeg 1 ≠ 0xD8 then (s, NJ_NO_JPEG)
  else
    let s1 := njSkip s 2
    match njMainLoop (jpeg.length + 2) s1 with
    | (s2, some r) => (s2, r)
    | (s2, none) =>
        if s2.error ≠ NJ_FINISHED then (s2, s2.error)
        else
          let s3 := njConvert { s2 with error := NJ_OK }
          (s3, s3.error)

/-- `njDecode` on a fresh context (the way every call site in
`ftrobopytools.c` uses it: `njInit(); njDecode(buf, len);`). -/
def njDecodeBytes (jpeg : List Nat) : NJCtx × NJResult :=
  njDecode njInitCtx jpeg jpeg.length

/-- `njGetImage`. -/
def njGetImage (s : NJCtx) : List Nat :=
  if s.ncomp = 1 then s.comp0.pixels else s.rgb

/-- `njGetImageSize`. -/
def njGetImageSize (s : NJCtx) : Nat := s.width * s.height * s.ncomp

/-- The bytes a caller actually reads through `njGetImage`: the first
`njGetImageSize` bytes of the plane. -/
def njImageBytes (s : NJCtx) : List Nat :=
  (njGetImage s).take (njGetImageSize s)

/-! ## Frame analyzer: `ftrobopytools_measureRGBColor`

The kernel operating on the decoded RGB frame (`ret_buf = njGetImage()`
onward).  `buf` is the frame as a byte function (index → byte value);
frame acquisition, decoding and its error handling are outside the kernel. -/

/-- Inner loop `for (j = 0; j < rwidth-3; j++)` of `measureRGBColor`:
accumulate `cols` pixels starting at byte offset `p`. -/
def rgbRowLoop (buf : Nat → Nat) : Nat → Nat → Nat × Nat × Nat → Nat × Nat × Nat
  | 0, _, acc => acc
  | cols + 1, p, (ar, ag, ab) =>
      rgbRowLoop buf cols (p + 3) (ar + buf p, ag + buf (p + 1), ab + buf (p + 2))

/-- Row loop of `measureRGBColor`: after each row the pointer has advanced by
`3*(rwidth-3)` and is then advanced by `(imgwidth - rwidth)*3`. -/
def rgbRectLoop (buf : Nat → Nat) (imgwidth rwidth : Nat) :
    Nat → Nat → Nat × Nat × Nat → Nat × Nat × Nat
  | 0, _, acc => acc
  | rows + 1, p, acc =>
      rgbRectLoop buf imgwidth rwidth rows
        (p + 3 * (rwidth - 3) + (imgwidth - rwidth) * 3)
        (rgbRowLoop buf (rwidth - 3) p acc)

/-- `ftrobopytools_measureRGBColor`, MJPEG path (`yuyv == 0`), from
`njGetImage()` on: sums over `rwidth-3` columns of each of `rheight` rows and
divides by `pixelcount = rwidth*rheight`; `none` when `pixelcount == 0`
(the C returns `Py_None`). -/
def measureRGBColor (buf : Nat → Nat) (imgwidth xtl ytl xbr ybr : Nat) :
    Option (Nat × Nat × Nat) :=
  let rwidth := xbr - xtl
  let rheight := ybr - ytl
  let pixelcount := rwidth * rheight
  let r := rgbRectLoop buf imgwidth rwidth rheight
            ((imgwidth * ytl + xtl) * 3) (0, 0, 0)
  if 0 < pixelcount then
    some (r.1 / pixelcount, r.2.1 / pixelcount, r.2.2 / pixelcount)
  else none

/-! ## Frame analyzer: `ftrobopytools_measureContrast` -/

/-- `abs(a - b)` on two byte values read as C ints. -/
def adiff (buf : Nat → Nat) (a b : Nat) : Nat :=
  ((buf a : Int) - (buf b : Int)).natAbs

/-- Inner loop `for (j = 0; j < rwidth-6; j++)` of `measureContrast`:
`p1` walks the current row, `p2` the row below. -/
def ctRowLoop (buf : Nat → Nat) : Nat → Nat → Nat → Nat × Nat × Nat → Nat × Nat × Nat
  | 0, _, _, acc => acc
  | cols + 1, p1, p2, (ar, ag, ab) =>
      ctRowLoop buf cols (p1 + 3) (p2 + 3)
        (ar + (adiff buf p1 (p1 + 3) + adiff buf p1 p2 + adiff buf p1 (p2 + 3)),
         ag + (adiff buf (p1 + 1) (p1 + 4) + adiff buf (p1 + 1) (p2 + 1) +
               adiff buf (p1 + 1) (p2 + 4)),
         ab + (adiff buf (p1 + 2) (p1 + 5) + adiff buf (p1 + 2) (p2 + 2) +
               adiff buf (p1 + 2) (p2 + 5)))

/-- Row loop `for (i = 0; i < rheight-1; i++)` of `measureContrast`. -/
def ctRectLoop (buf : Nat → Nat) (imgwidth rwidth : Nat) :
    Nat → Nat → Nat → Nat × Nat × Nat → Nat × Nat × Nat
  | 0, _, _, acc => acc
  | rows + 1, p1, p2, acc =>
      ctRectLoop buf imgwidth rwidth rows
        (p1 + 3 * (rwidth - 6) + (imgwidth - rwidth) * 3)
        (p2 + 3 * (rwidth - 6) + (imgwidth - rwidth) * 3)
        (ctRowLoop buf (rwidth - 6) p1 p2 acc)

/-- `ftrobopytools_measureContrast` from `njGetImage()` on (the preceding
`njGetImageSize` geometry check is outside the kernel): per-channel sums of
`|p − right| + |p − below| + |p − diagonal|` over `rheight-1` rows of
`rwidth-6` columns; result `ΔR*4/pc + ΔG*4/pc + ΔB*4/pc` with
`pc = (rwidth-1)*(rheight-1)`; `none` when `pc == 0`. -/
def measureContrast (buf : Nat → Nat) (imgwidth xtl ytl xbr ybr : Nat) :
    Option Nat :=
  let rwidth := xbr - xtl
  let rheight := ybr - ytl
  let pixelcount := (rwidth - 1) * (rheight - 1)
  let r := ctRectLoop buf imgwidth rwidth (rheight - 1)
            ((imgwidth * ytl + xtl) * 3) ((imgwidth * (ytl + 1) + xtl) * 3)
            (0, 0, 0)
  if 0 < pixelcount then
    some (r.1 * 4 / pixelcount + r.2.1 * 4 / pixelcount +
          r.2.2 * 4 / pixelcount)
  else none

/-! ## Frame analyzer: `ftrobopytools_detectLines`

The scan loop over the (already lighting-normalized) `linebuf`, emitting
`(position, width, red, green, blue)` tuples.  The on-image visualization
writes are not modelled (they only touch the displayed copy). -/

/-- The `while (l < numlines && l < MAXLINES && k < pixelcount-2)` loop.
`acc` is the list of emitted tuples, whose length is the C counter `l`;
`grad` holds the running `grad_rgb` (from which `last_grad_rgb` is taken). -/
def dlLoop (buf : Nat → Nat) (xmin pc minw maxw numlines thr : Nat) :
    Nat → Nat → Nat → Nat × Nat × Nat → Nat →
    List (Nat × Nat × Nat × Nat × Nat) → List (Nat × Nat × Nat × Nat × Nat)
  | 0, _, _, _, _, acc => acc
  | fuel + 1, k, count, (ar, ag, ab), grad, acc =>
      if acc.length < numlines ∧ acc.length < 5 ∧ k < pc - 2 then
        let lidx := 3 * k
        let g := adiff buf lidx (lidx + 3) + adiff buf (lidx + 1) (lidx + 4) +
                 adiff buf (lidx + 2) (lidx + 5)
        let last := grad
        if thr ≤ g ∧ last < thr ∧ count = 0 then
          dlLoop buf xmin pc minw maxw numlines thr fuel (k + 1) 1
            (buf lidx, buf (lidx + 1), buf (lidx + 2)) 0 acc
        else if g < thr ∧ thr ≤ last ∧ minw ≤ count ∧ count ≤ maxw then
          dlLoop buf xmin pc minw maxw numlines thr fuel (k + 1) 0
            (ar, ag, ab) 0
            (acc ++ [(xmin + k - count / 2, count, ar / count, ag / count,
                      ab / count)])
        else if 0 < count then
          dlLoop buf xmin pc minw maxw numlines thr fuel (k + 1) (count + 1)
            (ar + buf lidx, ag + buf (lidx + 1), ab + buf (lidx + 2)) g acc
        else
          dlLoop buf xmin pc minw maxw numlines thr fuel (k + 1) count
            (ar, ag, ab) 0 acc
      else acc

/-- The detection pass of `ftrobopytools_detectLines` over a prepared
`linebuf` (`pc = xmax - xmin` is the C `pixelcount`). -/
def detectLines (buf : Nat → Nat) (xmin pc minw maxw numlines thr : Nat) :
    List (Nat × Nat × Nat × Nat × Nat) :=
  dlLoop buf xmin pc minw maxw numlines thr pc 0 0 (0, 0, 0) 0 []

/-! ## Concrete witness inputs

Handcrafted baseline JPEG streams exercising the decoder.  All use one
quantization table (entry 0 = 16, others 1), a DC Huffman table with two
length-2 codes (symbols 0x02 and 0x00) and an AC table with one length-2 code
(symbol 0x00 = EOB). -/

/-- DQT segment: slot 0, entry 0 = 16, entries 1..63 = 1. -/
def segDQT : List Nat := [0xFF, 0xDB, 0x00, 0x43, 0x00, 16] ++ List.replicate 63 1

/-- DHT segment, DC table 0: two codes of length 2 for symbols 0x02, 0x00. -/
def segDHTdc : List Nat :=
  [0xFF, 0xC4, 0x00, 0x15, 0x00,
   0, 2, 0, 0, 0, 0, 0, 0, 0, 0, 0, 0, 0, 0, 0, 0, 0x02, 0x00]

/-- DHT segment, AC table 0: one code of length 2 for symbol 0x00 (EOB). -/
def segDHTac : List Nat :=
  [0xFF, 0xC4, 0x00, 0x14, 0x10,
   0, 1, 0, 0, 0, 0, 0, 0, 0, 0, 0, 0, 0, 0, 0, 0, 0x00]

/-- Baseline SOF, 1×1 grayscale, sampling 1×1, quantization table 0. -/
def segSOF1x1 : List Nat :=
  [0xFF, 0xC0, 0x00, 0x0B, 8, 0, 1, 0, 1, 1, 1, 0x11, 0]

/-- Baseline SOF, 16×8 grayscale (two MCUs). -/
def segSOF16x8 : List Nat :=
  [0xFF, 0xC0, 0x00, 0x0B, 8, 0, 8, 0, 16, 1, 1, 0x11, 0]

/-- DRI segment: restart interval 1. -/
def segDRI1 : List Nat := [0xFF, 0xDD, 0x00, 0x04, 0x00, 0x01]

/-- SOS segment for one grayscale component, tables 0/0, spectral 0..63. -/
def segSOS : List Nat :=
  [0xFF, 0xDA, 0x00, 0x08, 1, 1, 0x00, 0x00, 0x3F, 0x00]

/-- A complete, valid 1×1 grayscale JPEG (142 bytes): single flat-DC block,
DC difference 3, so the decoded pixel is
`clip(((3·16 << 3) + 32) >> 6 + 128) = 134`.  The SOF segment ends at byte
offset 129; entropy data is the single byte 0x33 at offset 139. -/
def jpeg1x1 : List Nat :=
  [0xFF, 0xD8] ++ segDQT ++ segDHTdc ++ segDHTac ++ segSOF1x1 ++ segSOS ++
  [0x33] ++ [0xFF, 0xD9]

/-- The same stream without any DQT segment: quantization slot 0 is used by
the frame but never defined. -/
def jpegNoDQT : List Nat :=
  [0xFF, 0xD8] ++ segDHTdc ++ segDHTac ++ segSOF1x1 ++ segSOS ++
  [0x33] ++ [0xFF, 0xD9]

/-- 16×8 grayscale, restart interval 1, two flat MCUs (DC difference 3 each,
predictor reset between them by the restart marker 0xFFD0). -/
def jpegRST : List Nat :=
  [0xFF, 0xD8] ++ segDQT ++ segDHTdc ++ segDHTac ++ segSOF16x8 ++ segDRI1 ++
  segSOS ++ [0x33, 0xFF, 0xD0, 0x33] ++ [0xFF, 0xD9]

/-- The same stream with the restart marker counter corrupted
(0xFFD1 instead of 0xFFD0). -/
def jpegRSTbad : List Nat :=
  [0xFF, 0xD8] ++ segDQT ++ segDHTdc ++ segDHTac ++ segSOF16x8 ++ segDRI1 ++
  segSOS ++ [0x33, 0xFF, 0xD1, 0x33] ++ [0xFF, 0xD9]

/-- The same 16×8 image encoded without restart markers (second MCU's DC
difference is 0, carried by the predictor). -/
def jpegNoRST : List Nat :=
  [0xFF, 0xD8] ++ segDQT ++ segDHTdc ++ segDHTac ++ segSOF16x8 ++
  segSOS ++ [0x31, 0x3F] ++ [0xFF, 0xD9]

/-! ## Spec-level comparison definitions and concrete analyzer inputs -/

/-- One contrast term of channel `c` at pixel byte offsets `p1` (current row)
and `p2` (row below): `|p − right| + |p − below| + |p − diagonal|`. -/
def ctTerm (buf : Nat → Nat) (c p1 p2 : Nat) : Nat :=
  adiff buf (p1 + c) (p1 + c + 3) + adiff buf (p1 + c) (p2 + c) +
  adiff buf (p1 + c) (p2 + c + 3)

/-- Modelled from the spec's words for claim C2: sum the contrast terms over
*every pixel except the last row/column of the rectangle* (true rectangle
geometry, `rheight-1` rows × `rwidth-1` columns), and combine the three
channel sums into the single scalar `4×(ΔR+ΔG+ΔB)/pixelcount` (with the
code's `pixelcount = (rwidth-1)*(rheight-1)`). -/
def specContrast (buf : Nat → Nat) (imgwidth xtl ytl xbr ybr : Nat) :
    Option Nat :=
  let rw := xbr - xtl
  let rh := ybr - ytl
  let pc := (rw - 1) * (rh - 1)
  let sR := ∑ i ∈ Finset.range (rh - 1), ∑ j ∈ Finset.range (rw - 1),
    ctTerm buf 0 (((ytl + i) * imgwidth + xtl + j) * 3)
      (((ytl + i + 1) * imgwidth + xtl + j) * 3)
  let sG := ∑ i ∈ Finset.range (rh - 1), ∑ j ∈ Finset.range (rw - 1),
    ctTerm buf 1 (((ytl + i) * imgwidth + xtl + j) * 3)
      (((ytl + i + 1) * imgwidth + xtl + j) * 3)
  let sB := ∑ i ∈ Finset.range (rh - 1), ∑ j ∈ Finset.range (rw - 1),
    ctTerm buf 2 (((ytl + i) * imgwidth + xtl + j) * 3)
      (((ytl + i + 1) * imgwidth + xtl + j) * 3)
  if 0 < pc then some (4 * (sR + sG + sB) / pc) else none

/-- Modelled from the spec's words for claim C5: the canonical-Huffman lookup
expansion — walking the code lengths `cl, cl+1, ...` with their counts, a
lookup value `v` falling in the `count * (65536 >> cl)` entries of length `cl`
decodes to length `cl` and the corresponding symbol; past the declared codes
the entry is cleared (`bits = 0`, `code` left at `dfl`). -/
def dhtSpec (syms : Nat → Nat) (dfl : Nat) :
    Nat → List Nat → Nat → Nat → Nat → Nat × Nat
  | _, [], _, _, _ => (0, dfl)
  | cl, c :: rest, off, sb, v =>
      if v < off + c * 2 ^ (16 - cl) then
        (cl, syms (sb + (v - off) / 2 ^ (16 - cl)))
      else dhtSpec syms dfl (cl + 1) rest (off + c * 2 ^ (16 - cl)) (sb + c) v

/-- The code space consumed by the declared counts starting at code length
`cl`: `Σ counts[k] * 2^(16 - (cl+k))`.  The counts form a complete code when
this equals 65536 (at `cl = 1`) and oversubscribe it when it exceeds 65536. -/
def dhtWeight (cl : Nat) : List Nat → Nat
  | [] => 0
  | c :: rest => c * 2 ^ (16 - cl) + dhtWeight (cl + 1) rest

/-- The dequantized coefficient block of a flat (DC-only) 8×8 block. -/
def dcOnlyBlock (dc : Int) : List Int := (List.replicate 64 0).set 0 dc

/-- A decoded RGB frame uniformly filled with the pixel value (200,100,50). -/
def uniformRGB : Nat → Nat := fun i => [200, 100, 50].getD (i % 3) 0

/-- An 8×2 RGB frame, all black except the red byte of pixel (row 0, col 5). -/
def contrastCexBuf : Nat → Nat := fun i => if i = 15 then 255 else 0

/-- A 10-pixel scanline: 2 black pixels, a 4-pixel stripe of (100,100,100),
4 black pixels. -/
def stripeBuf : List Nat :=
  (List.replicate 2 0 ++ List.replicate 4 100 ++ List.replicate 4 0).flatMap
    (fun v => [v, v, v])

def dhtCexCounts : List Nat := [0, 2, 0, 0, 0, 0, 0, 0, 0, 0, 0, 0, 0, 0, 0, 0]

def dhtCexSymCtx : NJCtx :=
  { njInitCtx with inp := [0x02, 0x00], pos := 0, size := 2, length := 2 }

def dhtCexCtx : NJCtx :=
  { njInitCtx with inp := segDHTdc, pos := 2, size := 21 }

/-! ## Helper lemmas -/

set_option maxRecDepth 2000000
set_option maxHeartbeats 4000000

theorem vlcFill_lookup (f : Nat → Nat × Nat) (start len : Nat) (v : Nat × Nat)
    (x : Nat) :
    vlcFill f start len v x =
      if start ≤ x ∧ x < start + len then v else f x := rfl

theorem dhtSpreadSyms_spec (inp : List Nat) (codelen spread : Nat)
    (hsp : 0 < spread) :
    ∀ (cnt : Nat) (tab : Nat → Nat × Nat) (p : Int) (off : Nat),
      (dhtSpreadSyms tab inp p codelen spread off cnt).2 = off + cnt * spread ∧
      ∀ x, (dhtSpreadSyms tab inp p codelen spread off cnt).1 x =
        if off ≤ x ∧ x < off + cnt * spread then
          (codelen, byteAt inp (p + ((x - off) / spread : Nat)))
        else tab x := by
  intro cnt
  induction cnt with
  | zero =>
      intro tab p off
      refine ⟨by simp [dhtSpreadSyms], fun x => ?_⟩
      rw [show (dhtSpreadSyms tab inp p codelen spread off 0).1 = tab from rfl,
        if_neg (by omega)]
  | succ n ih =>
      intro tab p off
      have hm : (n + 1) * spread = n * spread + spread := Nat.succ_mul n spread
      rw [dhtSpreadSyms]
      obtain ⟨ihoff, ihtab⟩ := ih (vlcFill tab off spread (codelen, byteAt inp p)) (p + 1) (off + spread)
      constructor
      · rw [ihoff]; omega
      · intro x
        rw [ihtab x, vlcFill_lookup]
        by_cases h1 : off + spread ≤ x ∧ x < off + spread + n * spread
        · rw [if_pos h1, if_pos (by omega : off ≤ x ∧ x < off + (n + 1) * spread)]
          have hd : (x - off) / spread = (x - off - spread) / spread + 1 := by
            conv_lhs => rw [show x - off = (x - off - spread) + spread from by omega]
            rw [Nat.add_div_right _ hsp]
          rw [hd]
          have hp : p + 1 + (((x - (off + spread)) / spread : Nat) : Int) =
              p + (((x - off - spread) / spread + 1 : Nat) : Int) := by
            have hx : x - (off + spread) = x - off - spread := by omega
            rw [hx]; push_cast; ring
          rw [hp]
        · rw [if_neg h1]
          by_cases h2 : off ≤ x ∧ x < off + spread
          · rw [if_pos h2, if_pos (by omega : off ≤ x ∧ x < off + (n + 1) * spread)]
            have hz : (x - off) / spread = 0 := Nat.div_eq_of_lt (by omega)
            rw [hz]
            norm_num
          · rw [if_neg h2, if_neg (by omega : ¬(off ≤ x ∧ x < off + (n + 1) * spread))]

theorem njSkip_inp (s : NJCtx) (c : Int) : (njSkip s c).inp = s.inp := by
  simp only [njSkip]; split <;> rfl

theorem njSkip_pos (s : NJCtx) (c : Int) : (njSkip s c).pos = s.pos + c := by
  simp only [njSkip]; split <;> rfl

theorem njSkip_length (s : NJCtx) (c : Int) :
    (njSkip s c).length = s.length - c := by
  simp only [njSkip]; split <;> rfl

theorem dhtLoop_go (syms : Nat → Nat) :
    ∀ (cnts : List Nat) (s : NJCtx) (tab : Nat → Nat × Nat) (off sb : Nat),
      cnts.length ≤ 16 → off ≤ 65536 →
      ((cnts.sum : Nat) : Int) ≤ s.length →
      (∀ j : Nat, byteAt s.inp (s.pos + (j : Int)) = syms (sb + j)) →
      ∀ (s' : NJCtx) (tab' : Nat → Nat × Nat) (remain' : Int)
        (off' : Nat) (threw : Bool),
        dhtLoop s tab cnts (2 ^ cnts.length) (65536 - (off : Int)) off =
          (s', tab', remain', off', threw) →
        (threw = true ↔ 65536 < off + dhtWeight (17 - cnts.length) cnts) ∧
        (threw = true → s'.error = NJ_SYNTAX_ERROR) ∧
        (threw = false → off' = off + dhtWeight (17 - cnts.length) cnts ∧
          ∀ v, tab' v =
            if off ≤ v ∧ v < off + dhtWeight (17 - cnts.length) cnts then
              dhtSpec syms 0 (17 - cnts.length) cnts off sb v
            else tab v) := by
  intro cnts
  induction cnts with
  | nil =>
      intro s tab off sb hl hoff hsum hsyms s' tab' remain' off' threw hr
      simp only [dhtLoop, Prod.mk.injEq] at hr
      obtain ⟨hs, ht, hrem, hof, hth⟩ := hr
      subst hs; subst ht; subst hrem; subst hof; subst hth
      refine ⟨?_, by simp, fun _ => ⟨by simp [dhtWeight], ?_⟩⟩
      · simp only [dhtWeight, Bool.false_eq_true, false_iff]
        omega
      · intro v
        rw [if_neg (by simp only [dhtWeight]; omega)]
  | cons c rest ih =>
      intro s tab off sb hl hoff hsum hsyms s' tab' remain' off' threw hr
      have hL : rest.length ≤ 15 := by
        simp only [List.length_cons] at hl; omega
      have hcl : 17 - (c :: rest).length = 16 - rest.length := by
        simp only [List.length_cons]; omega
      have hsp2 : (2 : Nat) ^ (c :: rest).length / 2 = 2 ^ rest.length := by
        simp [List.length_cons, pow_succ]
      have hw : dhtWeight (17 - (c :: rest).length) (c :: rest) =
          c * 2 ^ rest.length + dhtWeight (17 - rest.length) rest := by
        rw [hcl, dhtWeight]
        have h1 : 16 - (16 - rest.length) = rest.length := by omega
        have h2 : 16 - rest.length + 1 = 17 - rest.length := by omega
        rw [h1, h2]
      have hE : 16 - (16 - rest.length) = rest.length := by omega
      have hS : 16 - rest.length + 1 = 17 - rest.length := by omega
      simp only [dhtLoop] at hr
      rw [hsp2] at hr
      split at hr
      · -- currcnt = 0: pure skip
        rename_i hc0
        subst hc0
        have hsum' : ((rest.sum : Nat) : Int) ≤ s.length := by
          simp only [List.sum_cons] at hsum
          push_cast at hsum ⊢
          omega
        have hrec := ih s tab off sb (by omega) hoff hsum' hsyms
          s' tab' remain' off' threw hr
        have hw0 : dhtWeight (17 - (0 :: rest).length) (0 :: rest) =
            dhtWeight (17 - rest.length) rest := by
          rw [hw]; ring
        obtain ⟨h1, h2, h3⟩ := hrec
        refine ⟨by rw [hw0]; exact h1, h2, fun hf => ?_⟩
        obtain ⟨h3a, h3b⟩ := h3 hf
        refine ⟨by rw [hw0]; exact h3a, fun v => ?_⟩
        rw [hw0, h3b v]
        by_cases hv : off ≤ v ∧ v < off + dhtWeight (17 - rest.length) rest
        · rw [if_pos hv, if_pos hv]
          conv_rhs => rw [hcl, dhtSpec]
          simp only [Nat.zero_mul, Nat.add_zero, Nat.zero_add]
          rw [if_neg (by omega : ¬ v < off), hS]
        · rw [if_neg hv, if_neg hv]
      · rename_i hc0
        split at hr
        · -- njThrow on nj.length < currcnt: ruled out by hsum
          rename_i hlen2
          exfalso
          rw [List.sum_cons] at hsum
          have hcle : ((c : Nat) : Int) ≤ s.length :=
            le_trans (by exact_mod_cast Nat.le_add_right c rest.sum) hsum
          omega
        · rename_i hlen2
          split at hr
          · -- njThrow on remain < 0: oversubscribed counts
            rename_i hneg
            rw [hE] at hneg
            simp only [Prod.mk.injEq] at hr
            obtain ⟨hs, ht, hrem, hof, hth⟩ := hr
            subst hs; subst ht; subst hrem; subst hof; subst hth
            have hA : ((c * 2 ^ rest.length : Nat) : Int) =
                (c : Int) * 2 ^ rest.length := by push_cast; ring
            refine ⟨⟨fun _ => ?_, fun _ => rfl⟩, fun _ => rfl,
              fun hf => by simp at hf⟩
            rw [hw]
            omega
          · -- success: spread this length, recurse
            rename_i hneg
            rw [hE] at hneg hr
            obtain ⟨hfoff, hftab⟩ := dhtSpreadSyms_spec s.inp (16 - rest.length)
              (2 ^ rest.length) (Nat.pos_pow_of_pos _ (by norm_num)) c tab s.pos off
            rw [hfoff] at hr
            have hA : ((c * 2 ^ rest.length : Nat) : Int) =
                (c : Int) * 2 ^ rest.length := by push_cast; ring
            have hrem1 : 65536 - (off : Int) - (c : Int) * 2 ^ rest.length =
                65536 - ((off + c * 2 ^ rest.length : Nat) : Int) := by
              push_cast; ring
            rw [hrem1] at hr
            have hoff' : off + c * 2 ^ rest.length ≤ 65536 := by omega
            have hsum' : ((rest.sum : Nat) : Int) ≤ (njSkip s (c : Int)).length := by
              rw [njSkip_length]
              simp only [List.sum_cons] at hsum
              push_cast at hsum ⊢
              omega
            have hsyms' : ∀ j : Nat,
                byteAt (njSkip s (c : Int)).inp ((njSkip s (c : Int)).pos + (j : Int)) =
                  syms (sb + c + j) := by
              intro j
              rw [njSkip_inp, njSkip_pos,
                show s.pos + (c : Int) + (j : Int) = s.pos + ((c + j : Nat) : Int) from by
                  push_cast; ring,
                hsyms (c + j), Nat.add_assoc]
            have hrec := ih (njSkip s (c : Int)) _ (off + c * 2 ^ rest.length) (sb + c)
              (by omega) hoff' hsum' hsyms' s' tab' remain' off' threw hr
            obtain ⟨h1, h2, h3⟩ := hrec
            refine ⟨by rw [hw]; exact h1.trans (by omega), h2, fun hf => ?_⟩
            obtain ⟨h3a, h3b⟩ := h3 hf
            refine ⟨by rw [hw, h3a]; omega, fun v => ?_⟩
            rw [h3b v, hftab v, hw, hcl]
            by_cases hv1 : off ≤ v ∧ v < off + c * 2 ^ rest.length
            · rw [if_neg (by omega), if_pos hv1, if_pos (by omega : off ≤ v ∧
                v < off + (c * 2 ^ rest.length + dhtWeight (17 - rest.length) rest)),
                dhtSpec, hE, if_pos (by omega : v < off + c * 2 ^ rest.length),
                hsyms ((v - off) / 2 ^ rest.length)]
            · by_cases hv2 : off + c * 2 ^ rest.length ≤ v ∧
                  v < off + c * 2 ^ rest.length + dhtWeight (17 - rest.length) rest
              · rw [if_pos hv2, if_pos (by omega : off ≤ v ∧
                  v < off + (c * 2 ^ rest.length + dhtWeight (17 - rest.length) rest)),
                  dhtSpec, hE, if_neg (by omega : ¬ v < off + c * 2 ^ rest.length), hS]
              · rw [if_neg hv2, if_neg hv1, if_neg (by omega : ¬ (off ≤ v ∧
                  v < off + (c * 2 ^ rest.length + dhtWeight (17 - rest.length) rest)))]


/-- `sar` is euclidean division by the (positive) power of two. -/
theorem sar_eq_ediv (x : Int) (n : Nat) : sar x n = x / 2 ^ n := by
  unfold sar
  rw [Int.fdiv_eq_ediv]
  positivity

/-- The emitted-segment list of the detection loop never exceeds
`min numlines 5` once the accumulator respects the bound. -/
theorem dlLoop_len_aux (buf : Nat → Nat) (xmin pc minw maxw numlines thr : Nat) :
    ∀ (fuel k count ar ag ab grad : Nat)
      (acc : List (Nat × Nat × Nat × Nat × Nat)),
      acc.length ≤ min numlines 5 →
      (dlLoop buf xmin pc minw maxw numlines thr fuel k count (ar, ag, ab)
          grad acc).length ≤ min numlines 5 := by
  intro fuel
  induction fuel with
  | zero => intro k count ar ag ab grad acc h; simpa [dlLoop] using h
  | succ f ih =>
      intro k count ar ag ab grad acc h
      simp only [dlLoop]
      split
      · rename_i hguard
        split
        · exact ih _ _ _ _ _ _ _ h
        · split
          · apply ih
            simp only [List.length_append, List.length_cons, List.length_nil]
            omega
          · split
            · exact ih _ _ _ _ _ _ _ h
            · exact ih _ _ _ _ _ _ _ h
      · exact h

/-! ## Claim C9 — decoding is a pure function of the input bytes -/

/-- C9: `njDecode` begins with `njDone()`/`njInit()`, which resets the entire
global context (`memset` of the whole `nj_context_t`), so the decode result —
in particular the pixel output — does not depend on any state left behind by
previous decodes. -/
theorem njDecode_deterministic (s1 s2 : NJCtx) (jpeg : List Nat) (size : Int) :
    njDecode s1 jpeg size = njDecode s2 jpeg size ∧
    njImageBytes (njDecode s1 jpeg size).1 =
      njImageBytes (njDecode s2 jpeg size).1 ∧
    (njDecode s1 jpeg size).2 = (njDecode s2 jpeg size).2 :=
  ⟨rfl, rfl, rfl⟩

/-! ## Claim C1 — `measureRGBColor` on a uniform rectangle -/

/-- C1 (code bug): on a frame uniformly filled with (200,100,50)
(`imgwidth = 8`) the rectangle (0,0)–(6,2) — `rwidth = 6`, `rheight = 2`,
`pixelcount = 12` — yields (100,50,25), not (200,100,50): the inner loop sums
only `rwidth-3 = 3` columns per row (and the row pointer drifts 3 bytes left
each row) while each channel sum is divided by `rwidth*rheight`. -/
theorem measureRGBColor_bug_eval :
    measureRGBColor uniformRGB 8 0 0 6 2 = some (100, 50, 25) ∧
    measureRGBColor uniformRGB 8 0 0 6 2 ≠ some (200, 100, 50) := by
  decide

/-! ## Claim C3 — truncation behaviour of `njDecode` -/

/-- C3 counterexample: truncating the valid 142-byte JPEG `jpeg1x1` at offset
140 — strictly after its SOF segment, which ends at offset 129 — removes only
the EOI marker, and `njDecode` still returns `NJ_OK` (with the same pixels as
the full stream), because the decoder never requires the EOI marker and pads
exhausted input with synthetic 0xFF bytes. -/
theorem njDecode_truncation_cex :
    (njDecodeBytes (jpeg1x1.take 140)).2 = NJ_OK ∧
    (njDecodeBytes jpeg1x1).2 = NJ_OK ∧
    njImageBytes (njDecodeBytes (jpeg1x1.take 140)).1 =
      njImageBytes (njDecodeBytes jpeg1x1).1 ∧
    jpeg1x1.length = 142 := by
  refine ⟨by decide, by decide, by decide, by decide⟩

/-- C3 (amended): the complete truncation profile of `jpeg1x1` for all
truncation offsets after the SOF segment (129..142): offsets that cut the
scan header yield `NJ_SYNTAX_ERROR` or — where the stale-length path reaches
the component-count check first — `NJ_UNSUPPORTED`; offset 139 (scan header
complete, entropy data missing) yields `NJ_SYNTAX_ERROR`; offset 140 (only
the EOI marker cut) decodes successfully to the same single pixel 134; offset
141 (dangling 0xFF) yields `NJ_SYNTAX_ERROR`.  Moreover exhausted input is
never read: `pullByte` on a context with `size = 0` only appends a synthetic
0xFF byte to the accumulator. -/
theorem njDecode_truncation_profile :
    ((List.range 14).map fun k => (njDecodeBytes (jpeg1x1.take (129 + k))).2) =
      [NJ_SYNTAX_ERROR, NJ_SYNTAX_ERROR, NJ_SYNTAX_ERROR, NJ_SYNTAX_ERROR,
       NJ_UNSUPPORTED, NJ_UNSUPPORTED, NJ_UNSUPPORTED, NJ_UNSUPPORTED,
       NJ_UNSUPPORTED, NJ_UNSUPPORTED, NJ_SYNTAX_ERROR, NJ_OK,
       NJ_SYNTAX_ERROR, NJ_OK] ∧
    njImageBytes (njDecodeBytes (jpeg1x1.take 140)).1 = [134] ∧
    (∀ s : NJCtx, pullByte { s with size := 0 } =
      { s with size := 0, buf := (s.buf * 256 + 0xFF) % 2 ^ 32,
               bufbits := s.bufbits + 8 }) := by
  refine ⟨by decide, by decide, fun s => rfl⟩

/-! ## Claim C4 — `detectLines` segment emission -/

/-- C4 counterexample: on the stripe scanline `stripeBuf` (threshold 50,
`minwidth = 1`, `maxwidth = 20`, `numlines = 5`, window [0,10)), the single
segment opens at index 1 (the gradient between pixels 1 and 2 first reaches
the threshold), accumulates the five pixels 1..5 (channel sums 400, averages
80) and closes at index 6, emitting position `xmin + 6 - 5/2 = 4` — but the
claim's `position = start + width/2` is `1 + 5/2 = 3`. -/
theorem detectLines_position_cex :
    detectLines (fun i => stripeBuf.getD i 0) 0 10 1 20 5 50 =
      [(4, 5, 80, 80, 80)] ∧
    (4 : Nat) ≠ 1 + 5 / 2 := by
  refine ⟨by decide, by decide⟩

/-- C4 (amended): `detectLines` emits at most `min numlines 5` segments in
scan order, and on the stripe scanline it emits exactly one segment whose
position is `start + width - width/2` (i.e. `xmin + closingIndex - width/2`),
whose width is the accumulated pixel count, and whose channels are the
integer-divided sums of the accumulated pixels. -/
theorem detectLines_cap_and_stripe :
    (∀ (buf : Nat → Nat) (xmin pc minw maxw numlines thr : Nat),
       (detectLines buf xmin pc minw maxw numlines thr).length ≤
         min numlines 5) ∧
    detectLines (fun i => stripeBuf.getD i 0) 0 10 1 20 5 50 =
      [(1 + 5 - 5 / 2, 5, 400 / 5, 400 / 5, 400 / 5)] := by
  constructor
  · intro buf xmin pc minw maxw numlines thr
    exact dlLoop_len_aux buf xmin pc minw maxw numlines thr pc 0 0 0 0 0 0 []
      (by simp)
  · decide

/-! ## Claim C6 — table selectors referencing undefined slots -/

/-- C6 counterexample: `jpegNoDQT` declares no quantization table at all, its
frame uses slot 0 (`qtused = 1` while `qtavail = 0`), and yet decoding
completes with `NJ_OK`: the never-written slot is all zeros, so every
dequantized coefficient is 0 and the image decodes to the flat pixel 128.
`qtused`/`qtavail` are recorded but never compared. -/
theorem undefinedQT_silently_ok :
    (njDecodeBytes jpegNoDQT).2 = NJ_OK ∧
    (njDecodeBytes jpegNoDQT).1.qtused = 1 ∧
    (njDecodeBytes jpegNoDQT).1.qtavail = 0 ∧
    njImageBytes (njDecodeBytes jpegNoDQT).1 = [128] := by
  refine ⟨by decide, by decide, by decide, by decide⟩

/-- C6 (amended): a Huffman lookup whose selected entry was never defined
(`bits = 0`) makes `njGetVLC` fail with `NJ_SYNTAX_ERROR` and return 0 —
so an undefined Huffman slot always aborts the scan; but an undefined
quantization slot does not: `jpegNoDQT` decodes to completion (`NJ_OK`)
with `qtused = 1` and `qtavail = 0`, its single pixel coming from all-zero
quantized coefficients. -/
theorem undefined_table_slots :
    (∀ (s : NJCtx) (ti : Nat),
      ((njShowBits s 16).2.vlctab ti (njShowBits s 16).1).1 = 0 →
        (njGetVLC s ti).2.2.error = NJ_SYNTAX_ERROR ∧ (njGetVLC s ti).1 = 0) ∧
    (njDecodeBytes jpegNoDQT).2 = NJ_OK ∧
    (njDecodeBytes jpegNoDQT).1.qtused = 1 ∧
    (njDecodeBytes jpegNoDQT).1.qtavail = 0 := by
  refine ⟨?_, by decide, by decide, by decide⟩
  intro s ti h
  simp only [njGetVLC]
  rw [h]
  simp

/-- Witness for the hypothesis of `undefined_table_slots`: on a fresh
context (all lookup tables zero) every `njGetVLC` call fails. -/
theorem undefined_table_slots_witness :
    (njGetVLC { njInitCtx with inp := [0, 0], size := 2 } 0).2.2.error =
      NJ_SYNTAX_ERROR ∧
    (njGetVLC { njInitCtx with inp := [0, 0], size := 2 } 0).1 = 0 :=
  undefined_table_slots.1 { njInitCtx with inp := [0, 0], size := 2 } 0
    (by decide)

/-! ## Claim C7 — restart-interval resynchronization -/

/-- C7: the restart step byte-aligns, reads a 16-bit word, throws
`NJ_SYNTAX_ERROR` unless it is `0xFFD0 | expectedCounter`, and otherwise
resets all three components' DC predictors to 0 and advances the counter
modulo 8 (recorded bit-reader errors pass through without aborting, as in C);
concretely, the two-MCU restart stream `jpegRST` decodes to the same 128
pixels as the no-restart encoding `jpegNoRST` of the same image, while the
corrupted-counter stream `jpegRSTbad` fails with `NJ_SYNTAX_ERROR`. -/
theorem njRestart_protocol :
    (∀ (s : NJCtx) (r : Nat),
      (¬((njGetBits (njByteAlign s) 16).1 &&& 0xFFF8 = 0xFFD0 ∧
          (njGetBits (njByteAlign s) 16).1 &&& 7 = r) →
        (njRestart s r).1.error = NJ_SYNTAX_ERROR ∧
        (njRestart s r).2.2 = true) ∧
      (((njGetBits (njByteAlign s) 16).1 &&& 0xFFF8 = 0xFFD0 ∧
         (njGetBits (njByteAlign s) 16).1 &&& 7 = r) →
        (njRestart s r).1.comp0.dcpred = 0 ∧
        (njRestart s r).1.comp1.dcpred = 0 ∧
        (njRestart s r).1.comp2.dcpred = 0 ∧
        (njRestart s r).2.1 = (r + 1) % 8 ∧
        (njRestart s r).2.2 = false ∧
        (njRestart s r).1.error = (njGetBits (njByteAlign s) 16).2.error)) ∧
    (njDecodeBytes jpegRST).2 = NJ_OK ∧
    njImageBytes (njDecodeBytes jpegRST).1 = List.replicate 128 134 ∧
    njImageBytes (njDecodeBytes jpegRST).1 =
      njImageBytes (njDecodeBytes jpegNoRST).1 ∧
    (njDecodeBytes jpegRSTbad).2 = NJ_SYNTAX_ERROR := by
  refine ⟨?_, by decide, by decide, by decide, by decide⟩
  intro s r
  constructor
  · intro hne
    simp only [njRestart]
    split
    · exact ⟨rfl, rfl⟩
    · rename_i hcond
      push_neg at hcond
      exact absurd ⟨hcond.1, hcond.2⟩ hne
  · intro hok
    simp only [njRestart]
    split
    · rename_i hcond
      rcases hcond with h1 | h2
      · exact absurd hok.1 h1
      · exact absurd hok.2 h2
    · refine ⟨rfl, rfl, rfl, ?_, rfl, rfl⟩
      have h3 := Nat.and_pow_two_sub_one_eq_mod (r + 1) 3
      norm_num at h3
      exact h3

/-- Witness for the hypotheses of `njRestart_protocol`: a context whose next
bytes are the restart marker 0xFF 0xD0 passes the check with counter 0. -/
theorem njRestart_protocol_witness :
    (njRestart { njInitCtx with inp := [0xFF, 0xD0], size := 2 } 0).1.comp0.dcpred = 0 ∧
    (njRestart { njInitCtx with inp := [0xFF, 0xD0], size := 2 } 0).1.comp1.dcpred = 0 ∧
    (njRestart { njInitCtx with inp := [0xFF, 0xD0], size := 2 } 0).1.comp2.dcpred = 0 ∧
    (njRestart { njInitCtx with inp := [0xFF, 0xD0], size := 2 } 0).2.1 = (0 + 1) % 8 ∧
    (njRestart { njInitCtx with inp := [0xFF, 0xD0], size := 2 } 0).2.2 = false ∧
    (njRestart { njInitCtx with inp := [0xFF, 0xD0], size := 2 } 0).1.error =
      (njGetBits (njByteAlign { njInitCtx with inp := [0xFF, 0xD0], size := 2 }) 16).2.error :=
  (njRestart_protocol.1 { njInitCtx with inp := [0xFF, 0xD0], size := 2 } 0).2
    (by decide)

/-! ## Claim C10 — grayscale SOF forces 1x1 sampling -/

theorem compSet_ncomp (s : NJCtx) (i : Nat) (c : NJComp) :
    (compSet s i c).ncomp = s.ncomp := by
  unfold compSet; rcases i with _ | _ | _ | i <;> rfl

theorem compSet_width (s : NJCtx) (i : Nat) (c : NJComp) :
    (compSet s i c).width = s.width := by
  unfold compSet; rcases i with _ | _ | _ | i <;> rfl

theorem compSet_height (s : NJCtx) (i : Nat) (c : NJComp) :
    (compSet s i c).height = s.height := by
  unfold compSet; rcases i with _ | _ | _ | i <;> rfl

theorem compSet_mbsizex (s : NJCtx) (i : Nat) (c : NJComp) :
    (compSet s i c).mbsizex = s.mbsizex := by
  unfold compSet; rcases i with _ | _ | _ | i <;> rfl

theorem compSet_mbsizey (s : NJCtx) (i : Nat) (c : NJComp) :
    (compSet s i c).mbsizey = s.mbsizey := by
  unfold compSet; rcases i with _ | _ | _ | i <;> rfl

theorem njSkip_ncomp (s : NJCtx) (c : Int) : (njSkip s c).ncomp = s.ncomp := by
  simp only [njSkip]; split <;> rfl

theorem njSkip_width (s : NJCtx) (c : Int) : (njSkip s c).width = s.width := by
  simp only [njSkip]; split <;> rfl

theorem njSkip_height (s : NJCtx) (c : Int) : (njSkip s c).height = s.height := by
  simp only [njSkip]; split <;> rfl

theorem njSkip_mbsizex (s : NJCtx) (c : Int) : (njSkip s c).mbsizex = s.mbsizex := by
  simp only [njSkip]; split <;> rfl

theorem njSkip_mbsizey (s : NJCtx) (c : Int) : (njSkip s c).mbsizey = s.mbsizey := by
  simp only [njSkip]; split <;> rfl

theorem njSkip_comp0 (s : NJCtx) (c : Int) : (njSkip s c).comp0 = s.comp0 := by
  simp only [njSkip]; split <;> rfl

theorem sofComps_pres : ∀ (n : Nat) (s : NJCtx) (i sx sy : Nat),
    ((sofComps s i sx sy n).1).ncomp = s.ncomp ∧
    ((sofComps s i sx sy n).1).width = s.width ∧
    ((sofComps s i sx sy n).1).height = s.height := by
  intro n
  induction n with
  | zero => intro s i sx sy; exact ⟨rfl, rfl, rfl⟩
  | succ m ih =>
      intro s i sx sy
      simp only [sofComps]
      repeat' split
      all_goals
        simp_all [compSet_ncomp, compSet_width, compSet_height,
          njSkip_ncomp, njSkip_width, njSkip_height]

theorem sofComps_threw : ∀ (n : Nat) (s : NJCtx) (i sx sy : Nat),
    (sofComps s i sx sy n).2.2.2 = true →
    ((sofComps s i sx sy n).1).error ≠ NJ_OK := by
  intro n
  induction n with
  | zero => intro s i sx sy h; simp [sofComps] at h
  | succ m ih =>
      intro s i sx sy
      simp only [sofComps]
      repeat' split
      all_goals intro h
      all_goals first
        | exact ih _ _ _ _ h
        | simp_all

theorem sofDims_pres : ∀ (n : Nat) (s : NJCtx) (sx sy i : Nat),
    ((sofDims s sx sy i n).1).ncomp = s.ncomp ∧
    ((sofDims s sx sy i n).1).width = s.width ∧
    ((sofDims s sx sy i n).1).height = s.height ∧
    ((sofDims s sx sy i n).1).mbsizex = s.mbsizex ∧
    ((sofDims s sx sy i n).1).mbsizey = s.mbsizey := by
  intro n
  induction n with
  | zero => intro s sx sy i; exact ⟨rfl, rfl, rfl, rfl, rfl⟩
  | succ m ih =>
      intro s sx sy i
      simp only [sofDims]
      repeat' split
      all_goals
        simp_all [compSet_ncomp, compSet_width, compSet_height,
          compSet_mbsizex, compSet_mbsizey]

theorem sofDims_threw : ∀ (n : Nat) (s : NJCtx) (sx sy i : Nat),
    (sofDims s sx sy i n).2 = true →
    ((sofDims s sx sy i n).1).error ≠ NJ_OK := by
  intro n
  induction n with
  | zero => intro s sx sy i h; simp [sofDims] at h
  | succ m ih =>
      intro s sx sy i
      simp only [sofDims]
      repeat' split
      all_goals intro h
      all_goals first
        | exact ih _ _ _ _ h
        | simp_all

theorem sofAfterComps_gray (s4 : NJCtx) (sx sy : Nat) (h4 : s4.ncomp = 1) :
    (sofAfterComps s4 sx sy).ncomp = 1 ∧
    (sofAfterComps s4 sx sy).comp0.ssx = 1 ∧
    (sofAfterComps s4 sx sy).comp0.ssy = 1 ∧
    (sofAfterComps s4 sx sy).mbsizex = 8 ∧
    (sofAfterComps s4 sx sy).mbsizey = 8 ∧
    (sofAfterComps s4 sx sy).comp0.width = (sofAfterComps s4 sx sy).width ∧
    (sofAfterComps s4 sx sy).comp0.height = (sofAfterComps s4 sx sy).height := by
  simp only [sofAfterComps, h4, if_pos, compSet]
  simp only [sofDims, compGet]
  norm_num
  simp [njSkip_ncomp, njSkip_width, njSkip_height, njSkip_mbsizex,
    njSkip_mbsizey, njSkip_comp0, compSet, compGet, sofDims]


theorem sofDims_ncomp (n : Nat) (s : NJCtx) (sx sy i : Nat) :
    ((sofDims s sx sy i n).1).ncomp = s.ncomp := (sofDims_pres n s sx sy i).1

theorem sofComps_ncomp (n : Nat) (s : NJCtx) (i sx sy : Nat) :
    ((sofComps s i sx sy n).1).ncomp = s.ncomp := (sofComps_pres n s i sx sy).1

theorem sofAfterComps_ncomp (s4 : NJCtx) (sx sy : Nat) :
    (sofAfterComps s4 sx sy).ncomp = s4.ncomp := by
  by_cases hf : s4.ncomp = 1
  · rw [(sofAfterComps_gray s4 sx sy hf).1, hf]
  · simp only [sofAfterComps, if_neg hf]
    split
    · simp [sofDims_ncomp]
    · simp [njSkip_ncomp, apply_ite NJCtx.ncomp, sofDims_ncomp]

/-- C10: whenever `njDecodeSOF` succeeds on a single-component frame, the
component's sampling factors are forced to 1×1 (whatever the stream
declared), the MCU size is 8×8, the component plane has full frame
resolution, and the upsampling condition of `njConvert` is false for it. -/
theorem njDecodeSOF_grayscale (s : NJCtx) :
    (njDecodeSOF s).error = NJ_OK → (njDecodeSOF s).ncomp = 1 →
    (njDecodeSOF s).comp0.ssx = 1 ∧ (njDecodeSOF s).comp0.ssy = 1 ∧
    (njDecodeSOF s).mbsizex = 8 ∧ (njDecodeSOF s).mbsizey = 8 ∧
    (njDecodeSOF s).comp0.width = (njDecodeSOF s).width ∧
    (njDecodeSOF s).comp0.height = (njDecodeSOF s).height ∧
    ¬((njDecodeSOF s).comp0.width < (njDecodeSOF s).width ∨
      (njDecodeSOF s).comp0.height < (njDecodeSOF s).height) := by
  simp only [njDecodeSOF]
  split
  · intro h _; simp at h
  split
  · intro h _; simp at h
  split
  · intro h _; simp at h
  split
  · intro h _; simp at h
  split
  · rename_i hthrew
    intro h _
    exact absurd h (sofComps_threw _ _ _ _ _ hthrew)
  · intro _ h2
    rw [sofAfterComps_ncomp] at h2
    obtain ⟨hn, hssx, hssy, hmx, hmy, hw, hh⟩ := sofAfterComps_gray _ _ _ h2
    exact ⟨hssx, hssy, hmx, hmy, hw, hh, by omega⟩

/-- Witness for the hypotheses of `njDecodeSOF_grayscale`: a concrete
grayscale SOF segment (1×1 frame, declared sampling 1×1). -/
theorem njDecodeSOF_grayscale_witness :
    (njDecodeSOF { njInitCtx with inp := [0, 11, 8, 0, 1, 0, 1, 1, 1, 17, 0], size := 11 }).comp0.ssx = 1 ∧
    (njDecodeSOF { njInitCtx with inp := [0, 11, 8, 0, 1, 0, 1, 1, 1, 17, 0], size := 11 }).comp0.ssy = 1 ∧
    (njDecodeSOF { njInitCtx with inp := [0, 11, 8, 0, 1, 0, 1, 1, 1, 17, 0], size := 11 }).mbsizex = 8 ∧
    (njDecodeSOF { njInitCtx with inp := [0, 11, 8, 0, 1, 0, 1, 1, 1, 17, 0], size := 11 }).mbsizey = 8 ∧
    (njDecodeSOF { njInitCtx with inp := [0, 11, 8, 0, 1, 0, 1, 1, 1, 17, 0], size := 11 }).comp0.width =
      (njDecodeSOF { njInitCtx with inp := [0, 11, 8, 0, 1, 0, 1, 1, 1, 17, 0], size := 11 }).width ∧
    (njDecodeSOF { njInitCtx with inp := [0, 11, 8, 0, 1, 0, 1, 1, 1, 17, 0], size := 11 }).comp0.height =
      (njDecodeSOF { njInitCtx with inp := [0, 11, 8, 0, 1, 0, 1, 1, 1, 17, 0], size := 11 }).height ∧
    ¬((njDecodeSOF { njInitCtx with inp := [0, 11, 8, 0, 1, 0, 1, 1, 1, 17, 0], size := 11 }).comp0.width <
        (njDecodeSOF { njInitCtx with inp := [0, 11, 8, 0, 1, 0, 1, 1, 1, 17, 0], size := 11 }).width ∨
      (njDecodeSOF { njInitCtx with inp := [0, 11, 8, 0, 1, 0, 1, 1, 1, 17, 0], size := 11 }).comp0.height <
        (njDecodeSOF { njInitCtx with inp := [0, 11, 8, 0, 1, 0, 1, 1, 1, 17, 0], size := 11 }).height) :=
  njDecodeSOF_grayscale { njInitCtx with inp := [0, 11, 8, 0, 1, 0, 1, 1, 1, 17, 0], size := 11 }
    (by decide) (by decide)

/-! ## Claim C8 — flat-block fast path of the IDCT -/

theorem rowButt_dc (dc : Int) :
    njRowIDCT_butt (dc :: List.replicate 7 0) = List.replicate 8 (dc * 8) := by
  simp only [njRowIDCT_butt, W1, W2, W3, W5, W6, W7, sar_eq_ediv, List.getD,
    List.replicate, List.get?, List.cons.injEq]
  norm_num
  omega

theorem colButt_dc (x : Int) :
    njColIDCT_butt (x :: List.replicate 7 0) =
      List.replicate 8 (njClip (sar (x + 32) 6 + 128)) := by
  simp only [njColIDCT_butt, W1, W2, W3, W5, W6, W7, sar_eq_ediv, List.getD,
    List.replicate, List.get?, List.cons.injEq]
  norm_num
  and_intros <;> (congr 1 <;> omega)

theorem rowPassButt_dc (dc : Int) :
    rowPassButt (dcOnlyBlock dc) = rowPass (dcOnlyBlock dc) := by
  have hz : njRowIDCT_butt (List.replicate 8 0) = List.replicate 8 0 := by
    decide
  have h1 : rowPassButt (dcOnlyBlock dc) =
      njRowIDCT_butt (dc :: List.replicate 7 0) ++
      (List.replicate 7 (njRowIDCT_butt (List.replicate 8 0))).flatten := rfl
  rw [h1, rowButt_dc dc, hz]
  rfl

/-- C8: a dequantized block whose 63 AC coefficients are all zero is decoded
through the fast paths of `njRowIDCT`/`njColIDCT`, filling the whole 8×8
output with the single level `clip(((dc*8) + 32) >> 6 + 128)`; the full
butterfly network (`njRowIDCT_butt`/`njColIDCT_butt`) produces exactly the
same 64 bytes; and the 1×1 flat-DC witness JPEG decodes to precisely that
level (DC value 3·16 = 48, pixel 134). -/
theorem flatBlock_fast_path (dc : Int) :
    ((List.range 8).map fun c => colBytes (rowPass (dcOnlyBlock dc)) c) =
      List.replicate 8 (List.replicate 8 (njClip (sar (dc * 8 + 32) 6 + 128))) ∧
    ((List.range 8).map fun c => colBytesButt (rowPassButt (dcOnlyBlock dc)) c) =
      ((List.range 8).map fun c => colBytes (rowPass (dcOnlyBlock dc)) c) ∧
    (njDecodeBytes jpeg1x1).2 = NJ_OK ∧
    njImageBytes (njDecodeBytes jpeg1x1).1 =
      [njClip (sar (3 * 16 * 8 + 32) 6 + 128)] := by
  refine ⟨rfl, ?_, by decide, by decide⟩
  rw [rowPassButt_dc]
  refine List.map_congr_left ?_
  intro c hc
  rw [List.mem_range] at hc
  interval_cases c <;> exact (colButt_dc (dc * 8)).trans rfl

/-! ## Claim C2 — `measureContrast` summation domain and combination -/

theorem ctRowLoop_eq (buf : Nat → Nat) : ∀ (n p1 p2 a b c : Nat),
    ctRowLoop buf n p1 p2 (a, b, c) =
      (a + ∑ j ∈ Finset.range n, ctTerm buf 0 (p1 + 3 * j) (p2 + 3 * j),
       b + ∑ j ∈ Finset.range n, ctTerm buf 1 (p1 + 3 * j) (p2 + 3 * j),
       c + ∑ j ∈ Finset.range n, ctTerm buf 2 (p1 + 3 * j) (p2 + 3 * j)) := by
  intro n
  induction n with
  | zero => intro p1 p2 a b c; simp [ctRowLoop]
  | succ m ih =>
      intro p1 p2 a b c
      rw [ctRowLoop, ih]
      have hsum : ∀ (ch q1 q2 : Nat),
          (∑ j ∈ Finset.range m, ctTerm buf ch (q1 + 3 + 3 * j) (q2 + 3 + 3 * j)) =
            ∑ j ∈ Finset.range m, ctTerm buf ch (q1 + 3 * (j + 1)) (q2 + 3 * (j + 1)) := by
        intro ch q1 q2
        refine Finset.sum_congr rfl fun j _ => ?_
        congr 1 <;> ring
      simp only [Finset.sum_range_succ', hsum]
      refine Prod.ext ?_ (Prod.ext ?_ ?_) <;> simp [ctTerm] <;> ring_nf <;> omega


theorem ctRectLoop_eq (buf : Nat → Nat) (imgw rw' : Nat) :
    ∀ (rows p1 p2 a b c : Nat),
    ctRectLoop buf imgw rw' rows p1 p2 (a, b, c) =
      (a + ∑ i ∈ Finset.range rows, ∑ j ∈ Finset.range (rw' - 6),
         ctTerm buf 0 (p1 + i * (3 * (rw' - 6) + (imgw - rw') * 3) + 3 * j)
           (p2 + i * (3 * (rw' - 6) + (imgw - rw') * 3) + 3 * j),
       b + ∑ i ∈ Finset.range rows, ∑ j ∈ Finset.range (rw' - 6),
         ctTerm buf 1 (p1 + i * (3 * (rw' - 6) + (imgw - rw') * 3) + 3 * j)
           (p2 + i * (3 * (rw' - 6) + (imgw - rw') * 3) + 3 * j),
       c + ∑ i ∈ Finset.range rows, ∑ j ∈ Finset.range (rw' - 6),
         ctTerm buf 2 (p1 + i * (3 * (rw' - 6) + (imgw - rw') * 3) + 3 * j)
           (p2 + i * (3 * (rw' - 6) + (imgw - rw') * 3) + 3 * j)) := by
  intro rows
  induction rows with
  | zero => intro p1 p2 a b c; simp [ctRectLoop]
  | succ m ih =>
      intro p1 p2 a b c
      rw [ctRectLoop, ctRowLoop_eq, ih]
      have hsum : ∀ (ch q1 q2 : Nat),
          (∑ i ∈ Finset.range m, ∑ j ∈ Finset.range (rw' - 6),
            ctTerm buf ch
              (q1 + 3 * (rw' - 6) + (imgw - rw') * 3 +
                i * (3 * (rw' - 6) + (imgw - rw') * 3) + 3 * j)
              (q2 + 3 * (rw' - 6) + (imgw - rw') * 3 +
                i * (3 * (rw' - 6) + (imgw - rw') * 3) + 3 * j)) =
            ∑ i ∈ Finset.range m, ∑ j ∈ Finset.range (rw' - 6),
              ctTerm buf ch
                (q1 + (i + 1) * (3 * (rw' - 6) + (imgw - rw') * 3) + 3 * j)
                (q2 + (i + 1) * (3 * (rw' - 6) + (imgw - rw') * 3) + 3 * j) := by
        intro ch q1 q2
        refine Finset.sum_congr rfl fun i _ => Finset.sum_congr rfl fun j _ => ?_
        congr 1 <;> ring
      simp only [Finset.sum_range_succ', hsum]
      refine Prod.ext ?_ (Prod.ext ?_ ?_) <;> simp <;> ring_nf <;> omega


theorem measureContrast_closed (buf : Nat → Nat) (imgw xtl ytl xbr ybr : Nat) :
    measureContrast buf imgw xtl ytl xbr ybr =
      if 0 < ((xbr - xtl) - 1) * ((ybr - ytl) - 1) then
        some
          ((∑ i ∈ Finset.range ((ybr - ytl) - 1),
              ∑ j ∈ Finset.range ((xbr - xtl) - 6),
              ctTerm buf 0
                ((imgw * ytl + xtl) * 3 +
                  i * (3 * ((xbr - xtl) - 6) + (imgw - (xbr - xtl)) * 3) + 3 * j)
                ((imgw * (ytl + 1) + xtl) * 3 +
                  i * (3 * ((xbr - xtl) - 6) + (imgw - (xbr - xtl)) * 3) + 3 * j)) * 4 /
              (((xbr - xtl) - 1) * ((ybr - ytl) - 1)) +
           (∑ i ∈ Finset.range ((ybr - ytl) - 1),
              ∑ j ∈ Finset.range ((xbr - xtl) - 6),
              ctTerm buf 1
                ((imgw * ytl + xtl) * 3 +
                  i * (3 * ((xbr - xtl) - 6) + (imgw - (xbr - xtl)) * 3) + 3 * j)
                ((imgw * (ytl + 1) + xtl) * 3 +
                  i * (3 * ((xbr - xtl) - 6) + (imgw - (xbr - xtl)) * 3) + 3 * j)) * 4 /
              (((xbr - xtl) - 1) * ((ybr - ytl) - 1)) +
           (∑ i ∈ Finset.range ((ybr - ytl) - 1),
              ∑ j ∈ Finset.range ((xbr - xtl) - 6),
              ctTerm buf 2
                ((imgw * ytl + xtl) * 3 +
                  i * (3 * ((xbr - xtl) - 6) + (imgw - (xbr - xtl)) * 3) + 3 * j)
                ((imgw * (ytl + 1) + xtl) * 3 +
                  i * (3 * ((xbr - xtl) - 6) + (imgw - (xbr - xtl)) * 3) + 3 * j)) * 4 /
              (((xbr - xtl) - 1) * ((ybr - ytl) - 1)))
      else none := by
  simp only [measureContrast]
  rw [ctRectLoop_eq]
  simp


theorem measureContrast_flat (v imgw xtl ytl xbr ybr : Nat) :
    measureContrast (fun _ => v) imgw xtl ytl xbr ybr =
      if 0 < ((xbr - xtl) - 1) * ((ybr - ytl) - 1) then some 0 else none := by
  rw [measureContrast_closed]
  simp [ctTerm, adiff]

/-- C2 counterexample: on the 8×2 frame `contrastCexBuf` (all zero except the
red byte of pixel (0,5)) with rectangle (0,0)–(8,2), the code yields
`some 0` — its inner loop covers only `rwidth-6 = 2` columns — while the
claim's reading (every pixel except the last row/column, combined as
`4×(ΔR+ΔG+ΔB)/pixelcount`, formalized by `specContrast`) yields `some 582`. -/
theorem measureContrast_cex :
    measureContrast contrastCexBuf 8 0 0 8 2 = some 0 ∧
    specContrast contrastCexBuf 8 0 0 8 2 = some 582 ∧
    measureContrast contrastCexBuf 8 0 0 8 2 ≠
      specContrast contrastCexBuf 8 0 0 8 2 := by
  refine ⟨by decide, by decide, by decide⟩

/-- C2 (amended): `measureContrast` sums the per-channel quantities
`|p − right| + |p − below| + |p − diagonal|` over `rheight-1` rows of
`rwidth-6` columns, at buffer offsets advancing by
`3*(rwidth-6) + (imgwidth-rwidth)*3` per row (6 pixels left of the true row
stride), and returns the three separately integer-divided terms
`ΔR*4/pc + ΔG*4/pc + ΔB*4/pc` with `pc = (rwidth-1)*(rheight-1)`; a fully
flat rectangle yields 0, and `pc = 0` yields no result. -/
theorem measureContrast_spec :
    (∀ (buf : Nat → Nat) (imgw xtl ytl xbr ybr : Nat),
      measureContrast buf imgw xtl ytl xbr ybr =
        if 0 < ((xbr - xtl) - 1) * ((ybr - ytl) - 1) then
          some
            ((∑ i ∈ Finset.range ((ybr - ytl) - 1),
                ∑ j ∈ Finset.range ((xbr - xtl) - 6),
                ctTerm buf 0
                  ((imgw * ytl + xtl) * 3 +
                    i * (3 * ((xbr - xtl) - 6) + (imgw - (xbr - xtl)) * 3) + 3 * j)
                  ((imgw * (ytl + 1) + xtl) * 3 +
                    i * (3 * ((xbr - xtl) - 6) + (imgw - (xbr - xtl)) * 3) + 3 * j)) * 4 /
                (((xbr - xtl) - 1) * ((ybr - ytl) - 1)) +
             (∑ i ∈ Finset.range ((ybr - ytl) - 1),
                ∑ j ∈ Finset.range ((xbr - xtl) - 6),
                ctTerm buf 1
                  ((imgw * ytl + xtl) * 3 +
                    i * (3 * ((xbr - xtl) - 6) + (imgw - (xbr - xtl)) * 3) + 3 * j)
                  ((imgw * (ytl + 1) + xtl) * 3 +
                    i * (3 * ((xbr - xtl) - 6) + (imgw - (xbr - xtl)) * 3) + 3 * j)) * 4 /
                (((xbr - xtl) - 1) * ((ybr - ytl) - 1)) +
             (∑ i ∈ Finset.range ((ybr - ytl) - 1),
                ∑ j ∈ Finset.range ((xbr - xtl) - 6),
                ctTerm buf 2
                  ((imgw * ytl + xtl) * 3 +
                    i * (3 * ((xbr - xtl) - 6) + (imgw - (xbr - xtl)) * 3) + 3 * j)
                  ((imgw * (ytl + 1) + xtl) * 3 +
                    i * (3 * ((xbr - xtl) - 6) + (imgw - (xbr - xtl)) * 3) + 3 * j)) * 4 /
                (((xbr - xtl) - 1) * ((ybr - ytl) - 1)))
        else none) ∧
    (∀ (v imgw xtl ytl xbr ybr : Nat),
      measureContrast (fun _ => v) imgw xtl ytl xbr ybr =
        if 0 < ((xbr - xtl) - 1) * ((ybr - ytl) - 1) then some 0 else none) :=
  ⟨measureContrast_closed, measureContrast_flat⟩

/-- **C5.** `njDecodeDHT`s code-length loop (`dhtLoop`, started as in the
source with spread 65536, remain 65536 and a fresh table offset 0 over the
16 declared counts) expands the canonical table exactly as the specification
describes (`dhtSpec`: for each code length `l`, the `counts[l]` codes of that
length occupy `65536 >>> l` consecutive lookup slots each), but its
`SyntaxError` is raised precisely when the counts OVERsubscribe the code
space (`65536 < dhtWeight 1 counts`); an incomplete code
(`dhtWeight 1 counts < 65536`) is accepted, contrary to the claim that any
counts not summing to a complete code are rejected. -/
theorem njDecodeDHT_expansion (s : NJCtx) (tab : Nat → Nat × Nat)
    (counts : List Nat) (hlen : counts.length = 16)
    (hsum : ((counts.sum : Nat) : Int) ≤ s.length) :
    ∀ (s' : NJCtx) (tab' : Nat → Nat × Nat) (remain' : Int)
      (off' : Nat) (threw : Bool),
      dhtLoop s tab counts 65536 65536 0 = (s', tab', remain', off', threw) →
      (threw = true ↔ 65536 < dhtWeight 1 counts) ∧
      (threw = true → s'.error = NJ_SYNTAX_ERROR) ∧
      (threw = false → off' = dhtWeight 1 counts ∧
        ∀ v, tab' v =
          if v < dhtWeight 1 counts then
            dhtSpec (fun j => byteAt s.inp (s.pos + (j : Int))) 0 1 counts 0 0 v
          else tab v) := by
  intro s' tab' remain' off' threw hr
  have h16 : (2 : Nat) ^ counts.length = 65536 := by rw [hlen]; norm_num
  have h17 : 17 - counts.length = 1 := by rw [hlen]
  have hr' : dhtLoop s tab counts (2 ^ counts.length)
      (65536 - ((0 : Nat) : Int)) 0 = (s', tab', remain', off', threw) := by
    rw [h16, show (65536 - ((0 : Nat) : Int)) = 65536 from by norm_num]
    exact hr
  obtain ⟨h1, h2, h3⟩ := dhtLoop_go (fun j => byteAt s.inp (s.pos + (j : Int)))
    counts s tab 0 0 (by omega) (by omega) hsum (fun j => by norm_num)
    s' tab' remain' off' threw hr'
  rw [h17] at h1 h3
  simp only [Nat.zero_add] at h1 h3
  refine ⟨h1, h2, fun hf => ?_⟩
  obtain ⟨h3a, h3b⟩ := h3 hf
  refine ⟨h3a, fun v => ?_⟩
  rw [h3b v]
  by_cases hv : v < dhtWeight 1 counts
  · rw [if_pos ⟨Nat.zero_le v, hv⟩, if_pos hv]
  · rw [if_neg (fun h => hv h.2), if_neg hv]

/-- Witness for `njDecodeDHT_expansion` at the concrete incomplete
2-codes-of-length-2 table `dhtCexCounts`. -/
theorem njDecodeDHT_expansion_witness :
    (dhtCexCounts.length = 16 ∧
      ((dhtCexCounts.sum : Nat) : Int) ≤ dhtCexSymCtx.length) ∧
    ¬ 65536 < dhtWeight 1 dhtCexCounts ∧
    (dhtLoop dhtCexSymCtx (fun _ => (0, 0)) dhtCexCounts
      65536 65536 0).2.2.2.2 = false ∧
    (dhtLoop dhtCexSymCtx (fun _ => (0, 0)) dhtCexCounts
      65536 65536 0).2.2.2.1 = dhtWeight 1 dhtCexCounts ∧
    (dhtLoop dhtCexSymCtx (fun _ => (0, 0)) dhtCexCounts
      65536 65536 0).2.1 0 =
      dhtSpec (fun j => byteAt dhtCexSymCtx.inp (dhtCexSymCtx.pos + (j : Int)))
        0 1 dhtCexCounts 0 0 0 := by
  have h := njDecodeDHT_expansion dhtCexSymCtx (fun _ => (0, 0)) dhtCexCounts
    (by decide) (by decide) _ _ _ _ _ rfl
  have hnot : ¬ 65536 < dhtWeight 1 dhtCexCounts := by decide
  have hthrew : (dhtLoop dhtCexSymCtx (fun _ => (0, 0)) dhtCexCounts
      65536 65536 0).2.2.2.2 = false :=
    Bool.not_eq_true _ |>.mp fun ht => hnot (h.1.mp ht)
  obtain ⟨h3a, h3b⟩ := h.2.2 hthrew
  exact ⟨⟨by decide, by decide⟩, hnot, hthrew, h3a,
    (h3b 0).trans (if_pos (by decide))⟩

/-- **C5, counterexample to the validation half.** The DHT segment
`segDHTdc` declares two codes of length 2 only, an incomplete code
consuming 32768 of the 65536 slots; `njDecodeDHT` nevertheless accepts it
(`NJ_OK`), spreading the first symbol (0x02, bits 2) over the low slots.
`SyntaxError` is raised only for oversubscribed counts, never for
incomplete ones. -/
theorem njDecodeDHT_incomplete_accepted :
    dhtWeight 1 dhtCexCounts < 65536 ∧
    (njDecodeDHT dhtCexCtx).error = NJ_OK ∧
    (njDecodeDHT dhtCexCtx).vlctab 0 0 = (2, 2) := by
  refine ⟨by decide, ?_, ?_⟩ <;> decide

end FtRoboPy
